import Mathlib

/-!
Verification development for the bgfparser repository (Go).

The repository contains two SMILE decoders:
* the vendored production decoder (package `internal/smile`, files
  `decode.go` and `share.go`), used by `ParseBGFFromReader` via
  `smile.Unmarshal`; it is embedded below in namespace `Smile`;
* an older draft decoder (`smile_decoder.go`, type `smileDecoder` with
  entry point `DecodeSMILE`), embedded in namespace `smileDecoder`.

Go strings are modelled as raw byte sequences (`GoStr := List Nat`),
because Go's `string(bytes)` keeps arbitrary bytes.  Machine integers are
modelled as `Nat` bit patterns with explicit `% 2 ^ 64` where Go wraps,
together with `toSigned64` for reading a pattern as a two's-complement
`int64` value.
-/

/-- Go strings as raw byte sequences. -/
abbrev GoStr := List Nat

/-- Bytes of an ASCII string literal (used for Go string literals). -/
def asc (s : String) : GoStr := s.data.map Char.toNat

/-- Lower-case hexadecimal digit, as in Go's `%x` formatting. -/
def hexDig (n : Nat) : Nat := if n < 10 then 48 + n else 87 + n

/-- Go `%02x` rendering of one byte value (< 256). -/
def hex2 (b : Nat) : GoStr := [hexDig (b / 16 % 16), hexDig (b % 16)]

/-- Read a 64-bit pattern as a two's-complement signed value (Go `int64`). -/
def toSigned64 (w : Nat) : Int :=
  if w < 2 ^ 63 then (w : Int) else (w : Int) - 2 ^ 64

/-- Read a 32-bit pattern as a two's-complement signed value (Go `int32`). -/
def toSigned32 (w : Nat) : Int :=
  if w < 2 ^ 31 then (w : Int) else (w : Int) - 2 ^ 32

/-- Arithmetic shift right by one of a 64-bit pattern: Go `n >> 1` on an
`int64` whose pattern is `w` (the sign bit is replicated). -/
def sar1 (w : Nat) : Nat := w / 2 + if 2 ^ 63 ≤ w then 2 ^ 63 else 0

/-- Two's-complement negation on 64-bit patterns: Go `-x` on `int64`. -/
def neg64 (w : Nat) : Nat := (2 ^ 64 - w % 2 ^ 64) % 2 ^ 64

/-- web.go `zigZagDecode`: `(n >> 1) ^ (-(n & 1))` on `int64`, expressed on
64-bit patterns.  `n >> 1` is Go's arithmetic shift (`sar1`), `n & 1` is
`w &&& 1`, unary minus is two's-complement negation, `^` is xor. -/
def zigZagDecode (w : Nat) : Nat := (sar1 w) ^^^ (neg64 (w &&& 1))

/-- Modelled from the spec: the standard ZigZag encoding
(`0, -1, 1, -2, 2, ... ↦ 0, 1, 2, 3, 4, ...` per the glossary), producing
the 64-bit pattern of the encoded value.  The repository contains no
encoder; this definition exists only to state the round-trip claim. -/
def zigZagEncode (i : Int) : Nat :=
  if 0 ≤ i then (2 * i).toNat else (-2 * i - 1).toNat

section BitLemmas

theorem xor_div_two (a b : Nat) : (a ^^^ b) / 2 = a / 2 ^^^ b / 2 := by
  apply Nat.eq_of_testBit_eq
  intro i
  rw [Nat.testBit_div_two, Nat.testBit_xor, Nat.testBit_xor,
    Nat.testBit_div_two, Nat.testBit_div_two]

theorem or_div_two (a b : Nat) : (a ||| b) / 2 = a / 2 ||| b / 2 := by
  apply Nat.eq_of_testBit_eq
  intro i
  rw [Nat.testBit_div_two, Nat.testBit_or, Nat.testBit_or,
    Nat.testBit_div_two, Nat.testBit_div_two]

theorem xor_mod_two (a b : Nat) : (a ^^^ b) % 2 = (a + b) % 2 := by
  have h := Nat.testBit_xor a b 0
  simp only [Nat.testBit_zero] at h
  rcases Nat.mod_two_eq_zero_or_one (a ^^^ b) with hx | hx <;>
    rcases Nat.mod_two_eq_zero_or_one a with ha | ha <;>
      rcases Nat.mod_two_eq_zero_or_one b with hb | hb <;>
        first
          | omega
          | (exfalso; rw [hx, ha, hb] at h; simp at h)

theorem or_mod_two_left {a : Nat} (b : Nat) (hz : a % 2 = 0) :
    (a ||| b) % 2 = b % 2 := by
  have h := Nat.testBit_or a b 0
  simp only [Nat.testBit_zero] at h
  rcases Nat.mod_two_eq_zero_or_one (a ||| b) with hx | hx <;>
    rcases Nat.mod_two_eq_zero_or_one b with hb | hb <;>
      first
        | omega
        | (exfalso; rw [hx, hz, hb] at h; simp at h)

theorem xor_decompose (a b : Nat) :
    a ^^^ b = 2 * (a / 2 ^^^ b / 2) + (a ^^^ b) % 2 := by
  have h := Nat.div_add_mod (a ^^^ b) 2
  rw [xor_div_two] at h
  omega

/-- Xor with an all-ones mask complements a value below the mask. -/
theorem xor_all_ones : ∀ n : Nat, ∀ x < 2 ^ n, x ^^^ (2 ^ n - 1) = 2 ^ n - 1 - x := by
  intro n
  induction n with
  | zero =>
    intro x hx
    interval_cases x
    simp
  | succ n ih =>
    intro x hx
    have hx2 : x / 2 < 2 ^ n := by
      have : 2 ^ (n + 1) = 2 * 2 ^ n := by ring
      omega
    have hih := ih (x / 2) hx2
    have hd : (2 ^ (n + 1) - 1) / 2 = 2 ^ n - 1 := by
      have : 2 ^ (n + 1) = 2 * 2 ^ n := by ring
      have hp : 0 < 2 ^ n := Nat.pos_pow_of_pos n (by norm_num)
      omega
    have hdec := xor_decompose x (2 ^ (n + 1) - 1)
    rw [hd, hih, xor_mod_two] at hdec
    have hp : 0 < 2 ^ n := Nat.pos_pow_of_pos n (by norm_num)
    have h2 : 2 ^ (n + 1) = 2 * 2 ^ n := by ring
    omega

/-- Or-ing a value shifted left by `k` with a value below `2 ^ k` is
addition (the bit ranges are disjoint). -/
theorem shl_or_eq_add : ∀ k a b : Nat, b < 2 ^ k → (a <<< k) ||| b = a * 2 ^ k + b := by
  intro k
  induction k with
  | zero =>
    intro a b hb
    interval_cases b
    simp [Nat.shiftLeft_eq]
  | succ k ih =>
    intro a b hb
    rw [Nat.shiftLeft_eq] at *
    have hdouble : a * 2 ^ (k + 1) = 2 * (a * 2 ^ k) := by ring
    have hb2 : b / 2 < 2 ^ k := by
      have : 2 ^ (k + 1) = 2 * 2 ^ k := by ring
      omega
    have hih := ih a (b / 2) hb2
    rw [Nat.shiftLeft_eq] at hih
    have hdiv : (a * 2 ^ (k + 1) ||| b) / 2 = a * 2 ^ k ||| b / 2 := by
      rw [or_div_two]
      congr 1
      omega
    have hmod : (a * 2 ^ (k + 1) ||| b) % 2 = b % 2 := by
      apply or_mod_two_left
      omega
    have h := Nat.div_add_mod (a * 2 ^ (k + 1) ||| b) 2
    rw [hdiv, hmod, hih] at h
    omega

end BitLemmas

/-! ### Shared-string table (`internal/smile/share.go`) -/

/-- share.go: `type shared []string`. -/
abbrev shared := List GoStr

/-- share.go `(sPtr *shared) add(val string)`: if the table already holds
1024 or more entries it is cleared (`s = s[:0]`) before appending. -/
def shared.add (s : shared) (val : GoStr) : shared :=
  if 1024 ≤ s.length then [val] else s ++ [val]

/-- The table obtained by `n` successive `add` calls of `f 0, …, f (n-1)`
starting from the empty table. -/
def addSeq (f : Nat → GoStr) : Nat → shared
  | 0 => []
  | n + 1 => (addSeq f n).add (f n)

theorem addSeq_length_of_le (f : Nat → GoStr) :
    ∀ n, n ≤ 1024 → (addSeq f n).length = n := by
  intro n
  induction n with
  | zero => intro _; rfl
  | succ n ih =>
    intro h
    have hn : n ≤ 1024 := Nat.le_of_succ_le h
    have hlen := ih hn
    unfold addSeq shared.add
    rw [hlen]
    have : ¬ 1024 ≤ n := by omega
    simp [this, hlen]

theorem addSeq_succ_top (f : Nat → GoStr) : addSeq f 1025 = [f 1024] := by
  have h := addSeq_length_of_le f 1024 (by norm_num)
  unfold addSeq shared.add
  rw [h]
  simp

/-! ### Dynamic decoded values

`JVal` models Go's dynamic `interface{}` values as produced by the two
decoders: JSON-like nodes plus the numeric carriers the Go code builds.
`f32bits` / `f64bits` carry the IEEE-754 bit patterns that Go feeds to
`math.Float32frombits` / `math.Float64frombits`; the final `frombits`
relabeling is a bijection on patterns and is not modelled further. -/
inductive JVal : Type where
  | null : JVal
  | bool (b : Bool) : JVal
  | int (n : Int) : JVal
  | str (s : GoStr) : JVal
  | arr (xs : List JVal) : JVal
  | obj (m : List (GoStr × JVal)) : JVal
  | bigint (n : Int) : JVal
  | f32bits (w : Nat) : JVal
  | f64bits (w : Nat) : JVal

/-- A Go `map[string]interface{}`, as an association list in insertion
order; `mapSet` reproduces Go's map assignment (overwrite on existing
key, append otherwise). -/
abbrev JObj := List (GoStr × JVal)

/-- Go map assignment `m[k] = v`. -/
def mapSet : JObj → GoStr → JVal → JObj
  | [], k, v => [(k, v)]
  | (k', v') :: rest, k, v =>
    if k' = k then (k, v) :: rest else (k', v') :: mapSet rest k v

/-- Go map lookup `m[k]`. -/
def mapGet : JObj → GoStr → Option JVal
  | [], _ => none
  | (k', v') :: rest, k => if k' = k then some v' else mapGet rest k

/-- Big-endian interpretation of a byte sequence, as in
`math/big.Int.SetBytes`. -/
def beNat (bytes : List Nat) : Nat := bytes.foldl (fun a b => a * 256 + b) 0

/-! ### Vendored SMILE decoder (package `internal/smile`, decode.go)

This is the decoder actually used by `ParseBGFFromReader` through
`smile.Unmarshal`.  `ParseBGFFromReader` always decodes into a
`*interface{}` target, so the embedding follows the code path taken for
an empty-interface `reflect.Value`: `decodeState.value` reads a byte and
dispatches exactly like `decodeState.valueInterface`, with containers
going through `arrayInterface` / `objectInterface`.  The embedding
therefore models that common dispatch once, as `Smile.valueInterface`.

The decoder reads from a `bytes.Reader`; the state carries the remaining
bytes plus the two shared-string tables.  Go slice indexing past the end
(`d.sVals[i]`, `d.sKeys[i]`) is a runtime panic, modelled by the `panic`
outcome.  Mutual recursion over the input is paced by an explicit fuel
argument; running out of fuel yields the artificial error `fuelOut`,
which no real execution reaches once the fuel exceeds the input length. -/

namespace Smile

/-- Decoder state: remaining input and the two shared-string tables
(`decodeState.r`, `decodeState.sKeys`, `decodeState.sVals`).  The header
flag bits (`rawBinary`, `sStringVal`, `sPropName`) are stored by the Go
code but never consulted during decoding, so they are omitted. -/
structure St where
  rem : List Nat
  sKeys : shared
  sVals : shared
deriving DecidableEq

inductive Err : Type where
  | eof : Err
  | invalidHeader : Err
  | unsupportedVersion (v : Nat) : Err
  | unexpectedValue (b : Nat) : Err
  | unexpectedKey (b : Nat) : Err
  | notImpl (what : String) : Err
  | fuelOut : Err
deriving DecidableEq

/-- Outcome of a decoding step: success with updated state, a Go error
value, or a Go runtime panic. -/
inductive Res (α : Type) : Type where
  | ok (a : α) (s : St) : Res α
  | err (e : Err) : Res α
  | panic (msg : String) : Res α

/-- decode.go `ReadByte`: one byte from the reader, `io.EOF` when
exhausted. -/
def readB (s : St) : Res Nat :=
  match s.rem with
  | [] => .err .eof
  | b :: r => .ok b { s with rem := r }

/-- Which shared table a `*shared` argument points at (`&d.sKeys` or
`&d.sVals`). -/
inductive Tbl : Type where
  | keys : Tbl
  | vals : Tbl

/-- `share.add` applied to the selected table of the state. -/
def addTo (s : St) (t : Tbl) (str : GoStr) : St :=
  match t with
  | .keys => { s with sKeys := s.sKeys.add str }
  | .vals => { s with sVals := s.sVals.add str }

/-- decode.go `stringInterface`: read `b&0x1f + add` bytes, register the
string into the given shared table, return it.  `io.ReadFull` fails when
fewer bytes remain. -/
def stringInterface (b add : Nat) (t : Tbl) (s : St) : Res GoStr :=
  let n := (b &&& 0x1f) + add
  if n ≤ s.rem.length then
    let str := s.rem.take n
    .ok str (addTo { s with rem := s.rem.drop n } t str)
  else .err .eof

/-- Helper for decode.go `longString`: scan until the `0xfc` end-of-string
marker, returning the scanned bytes and the rest; `none` is `io.EOF`. -/
def longStringAux : List Nat → Option (GoStr × List Nat)
  | [] => none
  | b :: r =>
    if b = 0xfc then some ([], r)
    else
      match longStringAux r with
      | none => none
      | some (str, r') => some (b :: str, r')

/-- decode.go `longString`. -/
def longString (s : St) : Res GoStr :=
  match longStringAux s.rem with
  | none => .err .eof
  | some (str, r) => .ok str { s with rem := r }

/-- decode.go `longSharedString`: second index byte, then an unchecked
lookup `d.sVals[i]` (panics when out of range). -/
def longSharedString (b : Nat) (s : St) : Res GoStr :=
  match readB s with
  | .err e => .err e
  | .panic m => .panic m
  | .ok b2 s' =>
    let i := (b &&& 0x03) <<< 8 ||| b2
    match s'.sVals.get? i with
    | some v => .ok v s'
    | none => .panic "runtime error: index out of range"

/-- Helper for decode.go `int`: the varint accumulation loop on the byte
stream.  A byte with the high bit set is the terminal byte carrying its
low 6 bits; other bytes contribute 7 bits each, most significant first.
`v` is the `int64` accumulator as a 64-bit pattern (Go shifts wrap). -/
def intAux : List Nat → Nat → Option (Nat × List Nat)
  | [], _ => none
  | b :: r, v =>
    if 0x80 ≤ b then some ((v <<< 6 ||| (b &&& 0x3f)) % 2 ^ 64, r)
    else intAux r ((v <<< 7 ||| b) % 2 ^ 64)

/-- decode.go `int(signed bool)`. -/
def intF (signed : Bool) (s : St) : Res Int :=
  match intAux s.rem 0 with
  | none => .err .eof
  | some (v, r) =>
    let v := if signed then zigZagDecode v else v
    .ok (toSigned64 v) { s with rem := r }

/-- Helper for decode.go `safeBytes`: the 7-bit-to-8-bit repacking loop.
Arguments: remaining input, accumulated bytes, `scratch`, `scratchL`, and
the capacity of the preallocated slice.  Go's capacity check
`len(bytes) == cap(bytes)-1` is modelled as `bytes.length + 1 = cap`,
which also reproduces the vacuous comparison for `cap = 0`; on inputs
that would overrun the preallocated capacity Go's append would reallocate
with an allocator-chosen capacity, a corner no caller reaches and not
modelled beyond keeping the original `cap`. -/
def safeBytesAux : List Nat → List Nat → Nat → Nat → Nat → Option (List Nat × List Nat)
  | [], _, _, _, _ => none
  | b :: r, bytes, scratch, scratchL, cap =>
    let b := b &&& 0x7f
    if bytes.length + 1 = cap ∧ 1 ≤ scratchL then some (bytes ++ [scratch ||| b], r)
    else
      match scratchL with
      | 0 => safeBytesAux r bytes ((b <<< 1) % 256) 7 cap
      | 1 => safeBytesAux r (bytes ++ [b ||| scratch]) scratch 0 cap
      | sl + 2 =>
        let sl' := sl + 1
        safeBytesAux r (bytes ++ [scratch ||| b >>> sl']) ((b <<< (8 - sl')) % 256) sl' cap

/-- decode.go `safeBytes`: varint length, then the repacking loop.  A
negative length makes Go's `make([]byte, 0, l)` panic. -/
def safeBytes (s : St) : Res (List Nat) :=
  match intF false s with
  | .err e => .err e
  | .panic m => .panic m
  | .ok l s' =>
    if l < 0 then .panic "makeslice: cap out of range"
    else
      match safeBytesAux s'.rem [] 0 0 l.toNat with
      | none => .err .eof
      | some (bytes, r) => .ok bytes { s' with rem := r }

/-- decode.go `bigInt`: two's-complement sign handling over the unpacked
bytes (`bytes[0]` panics on an empty slice; `^b` is xor with 0xff,
`big.Int.Not` is `-x-1`). -/
def bigIntF (s : St) : Res Int :=
  match safeBytes s with
  | .err e => .err e
  | .panic m => .panic m
  | .ok bytes s' =>
    match bytes with
    | [] => .panic "runtime error: index out of range"
    | b0 :: _ =>
      if b0 &&& 0x80 ≠ 0 then
        .ok (-(Int.ofNat (beNat (bytes.map (fun b => b ^^^ 0xff))) + 1)) s'
      else .ok (Int.ofNat (beNat bytes)) s'

/-- decode.go `float32`: unconditionally `errors.New("smile: not
implemented: float32")`. -/
def float32F (_ : St) : Res Nat := .err (.notImpl "float32")

/-- Helper for decode.go `float64`: the fixed 10-iteration loop
accumulating 7 bits per byte into a `uint64` (wrapping). -/
def f64Aux : Nat → Nat → List Nat → Option (Nat × List Nat)
  | 0, bits, r => some (bits, r)
  | k + 1, bits, r =>
    match r with
    | [] => none
    | b :: r' => f64Aux k ((bits <<< 7 ||| b) % 2 ^ 64) r'

/-- decode.go `float64`: reads ten bytes, 7 bits each, and returns the
assembled `uint64` bit pattern (Go then applies
`math.Float64frombits`). -/
def float64F (s : St) : Res Nat :=
  match f64Aux 10 0 s.rem with
  | none => .err .eof
  | some (bits, r) => .ok bits { s with rem := r }

/-- decode.go `bigDecimal`: unconditionally an error. -/
def bigDecimalF (_ : St) : Res Nat := .err (.notImpl "big decimal")

/-- decode.go `smallInt`: `zigZagDecode(int64(b & 0x1f))`, read back as a
signed value. -/
def smallInt (b : Nat) : Int := toSigned64 (zigZagDecode (b &&& 0x1f))

/-- decode.go `key`: decode an object key from its leading byte.  The
shared-key lookups `d.sKeys[i]` and `d.sKeys[b&0x3f]` are unchecked slice
indexing (panic when out of range). -/
def keyF (b : Nat) (s : St) : Res GoStr :=
  if b = 0x20 then .ok [] s
  else if b = 0x34 then .err (.notImpl "long key string")
  else if 0x30 ≤ b ∧ b < 0x34 then
    match readB s with
    | .err e => .err e
    | .panic m => .panic m
    | .ok b2 s' =>
      let i := (b &&& 0x03) <<< 8 ||| b2
      match s'.sKeys.get? i with
      | some v => .ok v s'
      | none => .panic "runtime error: index out of range"
  else if 0x40 ≤ b ∧ b < 0x80 then
    match s.sKeys.get? (b &&& 0x3f) with
    | some v => .ok v s
    | none => .panic "runtime error: index out of range"
  else if 0x80 ≤ b ∧ b < 0xc0 then stringInterface b 1 .keys s
  else if 0xc0 ≤ b ∧ b < 0xf8 then stringInterface b 2 .keys s
  else .err (.unexpectedKey b)

/-- Lift a primitive result into a `JVal` result. -/
def mapOk (r : Res α) (f : α → JVal) : Res JVal :=
  match r with
  | .ok a s => .ok (f a) s
  | .err e => .err e
  | .panic m => .panic m

mutual

/-- decode.go `valueInterface` (and the identical dispatch performed by
`value` on an empty-interface target), on an already-read leading byte.
The `0x00` case is the shared-string back-reference: Go computes the
index with byte arithmetic (`b&0x1f - 1` wraps at zero) and indexes
`d.sVals` without a bounds check. -/
def valueInterface : Nat → Nat → St → Res JVal
  | 0, _, _ => .err .fuelOut
  | fuel + 1, b, s =>
    if b &&& 0xe0 = 0x00 then
      let i := ((b &&& 0x1f) + 255) % 256
      match s.sVals.get? i with
      | some v => .ok (.str v) s
      | none => .panic "runtime error: index out of range"
    else if b &&& 0xe0 = 0x20 then
      if b = 0x20 then .ok (.str []) s
      else if b = 0x21 then .ok .null s
      else if b = 0x22 then .ok (.bool false) s
      else if b = 0x23 then .ok (.bool true) s
      else if b = 0x24 ∨ b = 0x25 then mapOk (intF true s) .int
      else if b = 0x26 then mapOk (bigIntF s) .bigint
      else if b = 0x28 then mapOk (float32F s) .f32bits
      else if b = 0x29 then mapOk (float64F s) .f64bits
      else if b = 0x2a then mapOk (bigDecimalF s) .f64bits
      else .err (.unexpectedValue b)
    else if b &&& 0xe0 = 0x40 then mapOk (stringInterface b 1 .vals s) .str
    else if b &&& 0xe0 = 0x60 then mapOk (stringInterface b 33 .vals s) .str
    else if b &&& 0xe0 = 0x80 then mapOk (stringInterface b 2 .vals s) .str
    else if b &&& 0xe0 = 0xa0 then mapOk (stringInterface b 34 .vals s) .str
    else if b &&& 0xe0 = 0xc0 then .ok (.int (smallInt b)) s
    else
      if b = 0xe0 ∨ b = 0xe4 then mapOk (longString s) .str
      else if b = 0xf8 then arrayInterface fuel [] s
      else if b = 0xfa then objectInterface fuel [] s
      else if b &&& 0xfc = 0xec then mapOk (longSharedString b s) .str
      else .err (.unexpectedValue b)

/-- decode.go `arrayInterface`: read elements until the `0xf9` end-array
marker; any element error aborts and discards the whole array. -/
def arrayInterface : Nat → List JVal → St → Res JVal
  | 0, _, _ => .err .fuelOut
  | fuel + 1, acc, s =>
    match readB s with
    | .err e => .err e
    | .panic m => .panic m
    | .ok b s' =>
      if b = 0xf9 then .ok (.arr acc) s'
      else
        match valueInterface fuel b s' with
        | .err e => .err e
        | .panic m => .panic m
        | .ok v s'' => arrayInterface fuel (acc ++ [v]) s''

/-- decode.go `objectInterface`: read key/value pairs until the `0xfb`
end-object marker; any key or value error aborts and discards the whole
map. -/
def objectInterface : Nat → JObj → St → Res JVal
  | 0, _, _ => .err .fuelOut
  | fuel + 1, m, s =>
    match readB s with
    | .err e => .err e
    | .panic msg => .panic msg
    | .ok b s' =>
      if b = 0xfb then .ok (.obj m) s'
      else
        match keyF b s' with
        | .err e => .err e
        | .panic msg => .panic msg
        | .ok k s2 =>
          match readB s2 with
          | .err e => .err e
          | .panic msg => .panic msg
          | .ok b2 s3 =>
            match valueInterface fuel b2 s3 with
            | .err e => .err e
            | .panic msg => .panic msg
            | .ok v s4 => objectInterface fuel (mapSet m k v) s4

end

/-- decode.go `value` on an empty-interface target: read one byte, then
dispatch. -/
def value (fuel : Nat) (s : St) : Res JVal :=
  match readB s with
  | .err e => .err e
  | .panic m => .panic m
  | .ok b s' => valueInterface fuel b s'

/-- decode.go `Unmarshal` into a `*interface{}`: magic check, version
nibble check, then decode one value from the bytes after the four header
bytes with fresh (empty) shared tables. -/
def Unmarshal (fuel : Nat) (data : List Nat) : Res JVal :=
  if data.length < 4 ∨ data.take 3 ≠ [0x3a, 0x29, 0x0a] then .err .invalidHeader
  else
    let h := data.getD 3 0
    if h / 16 ≠ 0 then .err (.unsupportedVersion (h / 16))
    else value fuel ⟨data.drop 4, [], []⟩

end Smile

/-! ### Draft SMILE decoder (`smile_decoder.go`, type `smileDecoder`)

The draft decoder indexes an immutable byte buffer through a cursor
(`d.data`, `d.offset`) and keeps a single shared-string slice `d.keys`
(appended to by `readShortAscii`, consulted by `readSharedString` in both
key and value position; it has no capacity reset).  Go functions that
return `(value, error)` pairs are modelled as triples
`(Option GoStr) × value × state`: the error component carries the
`fmt.Errorf` message bytes, and the other two components are the values
Go actually returns alongside it (the draft decoder frequently returns a
meaningful partial value together with a non-nil error, which the
`DecodeSMILE` wrapper then inspects). -/

namespace smileDecoder

/-- Draft decoder state. -/
structure DSt where
  data : List Nat
  offset : Nat
  keys : List GoStr
deriving DecidableEq

/-- The byte at the cursor, `d.data[d.offset]`.  Every Go call site reads
it only after an explicit bounds check or a dispatch on the same byte, so
the default value is never observed. -/
def cur (s : DSt) : Nat := s.data.getD s.offset 0

/-- Advance the cursor by `n`. -/
def adv (s : DSt) (n : Nat) : DSt := { s with offset := s.offset + n }

/-- The slice `d.data[d.offset : d.offset+len]`. -/
def slice (s : DSt) (len : Nat) : GoStr := (s.data.drop s.offset).take len

/-- Go `%x` of a byte slice: two lower-case hex digits per byte. -/
def hexBytes (l : List Nat) : GoStr := l.foldr (fun b acc => hex2 b ++ acc) []

/-- smile_decoder.go `readSharedString`: the byte itself is the index; an
in-range index resolves against `d.keys`, an out-of-range index yields
the placeholder string `<shared#idx>` with a nil error. -/
def readSharedString (s : DSt) : Option GoStr × GoStr × DSt :=
  let idx := cur s
  let s' := adv s 1
  if idx < s.keys.length then (none, s.keys.getD idx [], s')
  else (none, asc "<shared#" ++ asc (toString idx) ++ asc ">", s')

/-- smile_decoder.go `readTinyAscii`: length is `b - 0x20 + 1`; the marker
is consumed before the bounds check. -/
def readTinyAscii (s : DSt) : Option GoStr × GoStr × DSt :=
  let b := cur s
  let length := b - 0x20 + 1
  let s' := adv s 1
  if s'.offset + length > s'.data.length then
    (some (asc "string extends beyond data"), [], s')
  else (none, slice s' length, adv s' length)

/-- smile_decoder.go `readShortAscii`: two length formulas for the
`0x40..0x7f` and `0x80..0xbf` ranges; strings from the second range are
appended to `d.keys`. -/
def readShortAscii (s : DSt) : Option GoStr × GoStr × DSt :=
  let b := cur s
  if 0x40 ≤ b ∧ b < 0x80 then
    let length := b - 0x40
    let s' := adv s 1
    if s'.offset + length > s'.data.length then
      (some (asc "string extends beyond data"), [], s')
    else (none, slice s' length, adv s' length)
  else if 0x80 ≤ b ∧ b < 0xc0 then
    let length := b - 0x80 + 1
    let s' := adv s 1
    if s'.offset + length > s'.data.length then
      (some (asc "string extends beyond data"), [], s')
    else
      let str := slice s' length
      (none, str, { adv s' length with keys := s'.keys ++ [str] })
  else (some (asc "not a short ASCII string: 0x" ++ hex2 b), [], s)

/-- smile_decoder.go `readShortString` (uncalled in the source): shared
key reference with a placeholder fallback `<key#idx>`. -/
def readShortString (s : DSt) : Option GoStr × GoStr × DSt :=
  let b := cur s
  if 0x80 ≤ b ∧ b < 0xc0 then
    let idx := b - 0x80
    let s' := adv s 1
    if idx < s'.keys.length then (none, s'.keys.getD idx [], s')
    else (none, asc "<key#" ++ asc (toString idx) ++ asc ">", s')
  else (some (asc "unhandled short string type: 0x" ++ hex2 b), [], adv s 1)

/-- Helper for smile_decoder.go `readVInt`: the accumulation loop over the
bytes from the cursor on.  Each byte contributes its low 7 bits at the
current shift (least-significant group first); a clear high bit
terminates; after more than 28 bits of continuation the loop fails with
`VInt too large`.  Returns (error, value, bytes consumed). -/
def readVIntAux : List Nat → Nat → Nat → Option GoStr × Nat × Nat
  | [], _, _ => (some (asc "unexpected end in VInt"), 0, 0)
  | b :: r, result, shift =>
    let result' := result ||| ((b &&& 0x7f) <<< shift)
    let shift' := shift + 7
    if b &&& 0x80 = 0 then (none, result', 1)
    else if shift' > 28 then (some (asc "VInt too large"), 0, 1)
    else
      let (e, v, c) := readVIntAux r result' shift'
      (e, v, c + 1)

/-- smile_decoder.go `readVInt`. -/
def readVInt (s : DSt) : Option GoStr × Nat × DSt :=
  if s.data.length ≤ s.offset then (some (asc "unexpected end reading VInt"), 0, s)
  else
    let (e, v, c) := readVIntAux (s.data.drop s.offset) 0 0
    (e, v, adv s c)

/-- smile_decoder.go `readLongString`: marker byte, varint length,
length-prefixed bytes; markers outside `0xe0..0xe7` produce the
`<type:0x..>` placeholder with a nil error (`b-1` is Go byte
arithmetic). -/
def readLongString (s : DSt) : Option GoStr × GoStr × DSt :=
  let b := cur s
  let s1 := adv s 1
  if 0xe0 ≤ b ∧ b ≤ 0xe3 then
    match readVInt s1 with
    | (some e, _, s2) => (some e, [], s2)
    | (none, length, s2) =>
      if s2.offset + length > s2.data.length then
        (some (asc "long string extends beyond data"), [], s2)
      else (none, slice s2 length, adv s2 length)
  else if 0xe4 ≤ b ∧ b ≤ 0xe7 then
    match readVInt s1 with
    | (some e, _, s2) => (some e, [], s2)
    | (none, length, s2) =>
      if s2.offset + length > s2.data.length then
        (some (asc "long unicode string extends beyond data"), [], s2)
      else (none, slice s2 length, adv s2 length)
  else (none, asc "<type:0x" ++ hex2 ((b + 255) % 256) ++ asc ">", s1)

/-- smile_decoder.go `readInt32` (dead code: its `0x24` dispatch byte is
claimed by the tiny-ASCII range first): four raw big-endian bytes into an
`int32`. -/
def readInt32 (s : DSt) : Option GoStr × JVal × DSt :=
  let s1 := adv s 1
  if s1.offset + 4 > s1.data.length then
    (some (asc "not enough data for int32"), .int 0, s1)
  else
    let w := (s1.data.getD s1.offset 0) <<< 24 ||| (s1.data.getD (s1.offset + 1) 0) <<< 16 |||
      (s1.data.getD (s1.offset + 2) 0) <<< 8 ||| s1.data.getD (s1.offset + 3) 0
    (none, .int (toSigned32 w), adv s1 4)

/-- smile_decoder.go `readInt64` (dead code, like `readInt32`): eight raw
big-endian bytes into an `int64`. -/
def readInt64 (s : DSt) : Option GoStr × JVal × DSt :=
  let s1 := adv s 1
  if s1.offset + 8 > s1.data.length then
    (some (asc "not enough data for int64"), .int 0, s1)
  else
    let w := (s1.data.getD s1.offset 0) <<< 56 ||| (s1.data.getD (s1.offset + 1) 0) <<< 48 |||
      (s1.data.getD (s1.offset + 2) 0) <<< 40 ||| (s1.data.getD (s1.offset + 3) 0) <<< 32 |||
      (s1.data.getD (s1.offset + 4) 0) <<< 24 ||| (s1.data.getD (s1.offset + 5) 0) <<< 16 |||
      (s1.data.getD (s1.offset + 6) 0) <<< 8 ||| s1.data.getD (s1.offset + 7) 0
    (none, .int (toSigned64 w), adv s1 8)

/-- smile_decoder.go `readBigInteger`: varint byte length, then that many
raw bytes rendered as the `<bigint:..>` hex placeholder string. -/
def readBigInteger (s : DSt) : Option GoStr × GoStr × DSt :=
  let s1 := adv s 1
  match readVInt s1 with
  | (some e, _, s2) => (some e, [], s2)
  | (none, length, s2) =>
    if s2.offset + length > s2.data.length then
      (some (asc "big integer extends beyond data"), [], s2)
    else (none, asc "<bigint:" ++ hexBytes (slice s2 length) ++ asc ">", adv s2 length)

/-- smile_decoder.go `readFloat32`: marker byte, then exactly four raw
payload bytes assembled big-endian into the IEEE-754 bit pattern. -/
def readFloat32 (s : DSt) : Option GoStr × JVal × DSt :=
  let s1 := adv s 1
  if s1.offset + 4 > s1.data.length then
    (some (asc "not enough data for float32"), .f32bits 0, s1)
  else
    let w := (s1.data.getD s1.offset 0) <<< 24 ||| (s1.data.getD (s1.offset + 1) 0) <<< 16 |||
      (s1.data.getD (s1.offset + 2) 0) <<< 8 ||| s1.data.getD (s1.offset + 3) 0
    (none, .f32bits w, adv s1 4)

/-- smile_decoder.go `readFloat64`: marker byte, then exactly eight raw
payload bytes assembled big-endian into the IEEE-754 bit pattern. -/
def readFloat64 (s : DSt) : Option GoStr × JVal × DSt :=
  let s1 := adv s 1
  if s1.offset + 8 > s1.data.length then
    (some (asc "not enough data for float64"), .f64bits 0, s1)
  else
    let w := (s1.data.getD s1.offset 0) <<< 56 ||| (s1.data.getD (s1.offset + 1) 0) <<< 48 |||
      (s1.data.getD (s1.offset + 2) 0) <<< 40 ||| (s1.data.getD (s1.offset + 3) 0) <<< 32 |||
      (s1.data.getD (s1.offset + 4) 0) <<< 24 ||| (s1.data.getD (s1.offset + 5) 0) <<< 16 |||
      (s1.data.getD (s1.offset + 6) 0) <<< 8 ||| s1.data.getD (s1.offset + 7) 0
    (none, .f64bits w, adv s1 8)

/-- smile_decoder.go `readBigDecimal`: varint scale, varint length, raw
bytes, rendered as the `<decimal:..>` placeholder string. -/
def readBigDecimal (s : DSt) : Option GoStr × GoStr × DSt :=
  let s1 := adv s 1
  match readVInt s1 with
  | (some e, _, s2) => (some e, [], s2)
  | (none, scale, s2) =>
    match readVInt s2 with
    | (some e, _, s3) => (some e, [], s3)
    | (none, length, s3) =>
      if s3.offset + length > s3.data.length then
        (some (asc "big decimal extends beyond data"), [], s3)
      else
        (none,
          asc "<decimal:scale=" ++ asc (toString scale) ++ asc ",val=" ++
            hexBytes (slice s3 length) ++ asc ">",
          adv s3 length)

/-- smile_decoder.go `readSmallInt`: the cursor advances before the range
check; the value is `int(b) - 0xD0` (zero point `0xD0`). -/
def readSmallInt (s : DSt) : Option GoStr × JVal × DSt :=
  let b := cur s
  let s' := adv s 1
  if 0xc0 ≤ b ∧ b ≤ 0xdf then (none, .int ((b : Int) - 0xd0), s')
  else (some (asc "not a small integer: 0x" ++ hex2 b), .null, s')

/-- smile_decoder.go `readFloat` (dead code: its dispatch bytes are
claimed by the tiny-ASCII range first). -/
def readFloat (s : DSt) : Option GoStr × JVal × DSt :=
  let b := cur s
  if b = 0x28 then readFloat32 s
  else if b = 0x2a then readFloat64 s
  else (some (asc "unknown float type: 0x" ++ hex2 b), .null, adv s 1)

/-- smile_decoder.go `readLongValue`: dispatch on a `0xe0`-and-above
marker byte. -/
def readLongValue (s : DSt) : Option GoStr × JVal × DSt :=
  let b := cur s
  if 0xe0 ≤ b ∧ b ≤ 0xe3 then
    let (e, v, s') := readLongString s
    (e, .str v, s')
  else if 0xe4 ≤ b ∧ b ≤ 0xe7 then
    let (e, v, s') := readLongString s
    (e, .str v, s')
  else if b = 0xe8 then
    let (e, v, s') := readBigInteger s
    (e, .str v, s')
  else if b = 0xe9 then readFloat32 s
  else if b = 0xea then readFloat64 s
  else if b = 0xeb then
    let (e, v, s') := readBigDecimal s
    (e, .str v, s')
  else (none, .str (asc "<unknown:0x" ++ hex2 b ++ asc ">"), adv s 1)

/-- Go `fmt.Sprintf("%v", val)` as used for non-string long keys in
`readObject`.  Only `f32bits`/`f64bits` are reachable there; Go would
print their decimal float rendering, which is not modelled (no theorem
depends on this rendering). -/
def render : JVal → GoStr
  | .null => asc "<nil>"
  | .bool true => asc "true"
  | .bool false => asc "false"
  | .int n => asc (toString n)
  | .str s => s
  | .arr _ => asc "<array>"
  | .obj _ => asc "<map>"
  | .bigint n => asc (toString n)
  | .f32bits w => asc "<float32bits " ++ asc (toString w) ++ asc ">"
  | .f64bits w => asc "<float64bits " ++ asc (toString w) ++ asc ">"

/-- The key-reading dispatch inlined at the top of smile_decoder.go
`readObject`, with the per-branch `fmt.Errorf` wrappers. -/
def readObjectKey (b : Nat) (s : DSt) : Option GoStr × GoStr × DSt :=
  if b < 0x20 then
    let (e, k, s') := readSharedString s
    ((e.map fun m => asc "error reading shared key: " ++ m), k, s')
  else if b < 0x40 then
    let (e, k, s') := readTinyAscii s
    ((e.map fun m => asc "error reading tiny key: " ++ m), k, s')
  else if b < 0xc0 then
    let (e, k, s') := readShortAscii s
    ((e.map fun m => asc "error reading object key: " ++ m), k, s')
  else if 0xe0 ≤ b then
    match readLongValue s with
    | (some e, _, s') => (some (asc "error reading long key: " ++ e), [], s')
    | (none, .str str, s') => (none, str, s')
    | (none, v, s') => (none, render v, s')
  else
    (some (asc "unexpected key type marker: 0x" ++ hex2 b ++ asc " at offset " ++
      asc (toString s.offset)), [], s)

mutual

/-- smile_decoder.go `decode`: single dispatch on the byte at the cursor.
The trailing `0x24`/`0x25`/`0x26`/`0x28`/`0x2a` branches of the Go source
are kept although they are unreachable (those bytes are claimed by the
tiny-ASCII range above them), as is the final `unknown SMILE token`
error. -/
def decode : Nat → DSt → Option GoStr × JVal × DSt
  | 0, s => (some (asc "out of fuel"), .null, s)
  | fuel + 1, s =>
    if s.data.length ≤ s.offset then (some (asc "unexpected end of data"), .null, s)
    else
      let b := cur s
      if b = 0xfa then
        let (e, m, s') := readObjectLoop fuel (adv s 1) []
        (e, .obj m, s')
      else if b = 0xf8 then
        let (e, xs, s') := readArrayLoop fuel (adv s 1) []
        (e, .arr xs, s')
      else if b = 0xfb ∨ b = 0xf9 then
        (some (asc "unexpected end marker: 0x" ++ hex2 b), .null, s)
      else if b = 0x23 then (none, .bool true, adv s 1)
      else if b = 0x22 then (none, .bool false, adv s 1)
      else if b = 0x21 then (none, .null, adv s 1)
      else if b < 0x20 then
        let (e, v, s') := readSharedString s
        (e, .str v, s')
      else if b < 0x40 then
        let (e, v, s') := readTinyAscii s
        (e, .str v, s')
      else if b < 0xc0 then
        let (e, v, s') := readShortAscii s
        (e, .str v, s')
      else if b < 0xe0 then readSmallInt s
      else if 0xe0 ≤ b then readLongValue s
      else if b = 0x24 then readInt32 s
      else if b = 0x25 then readInt64 s
      else if b = 0x26 then
        let (e, v, s') := readBigInteger s
        (e, .str v, s')
      else if b = 0x28 ∨ b = 0x2a then readFloat s
      else
        (some (asc "unknown SMILE token: 0x" ++ hex2 b ++ asc " at offset " ++
          asc (toString s.offset)), .null, s)

/-- The loop of smile_decoder.go `readObject` (the `0xfa` marker is
consumed by the caller).  On a value error the failing key is stored
bound to the `<decode error: ..>` placeholder string and the map so far
is returned together with the error; leaving the loop without an
end-object marker yields `object not properly closed`. -/
def readObjectLoop : Nat → DSt → JObj → Option GoStr × JObj × DSt
  | 0, s, m => (some (asc "out of fuel"), m, s)
  | fuel + 1, s, m =>
    if s.offset < s.data.length then
      let b := cur s
      if b = 0xfb then (none, m, adv s 1)
      else if b = 0xf9 then
        (some (asc "unexpected end array in object at offset " ++ asc (toString s.offset)), m, s)
      else
        match readObjectKey b s with
        | (some e, _, s') => (some e, m, s')
        | (none, keyStr, s') =>
          match decode fuel s' with
          | (some e, _, s'') =>
            (some e, mapSet m keyStr (.str (asc "<decode error: " ++ e ++ asc ">")), s'')
          | (none, v, s'') => readObjectLoop fuel s'' (mapSet m keyStr v)
    else (some (asc "object not properly closed"), m, s)

/-- The loop of smile_decoder.go `readArray`.  On an element error the
elements so far are returned with the error (the failing element is
omitted); running off the end of the buffer returns the elements so far
with a nil error. -/
def readArrayLoop : Nat → DSt → List JVal → Option GoStr × List JVal × DSt
  | 0, s, acc => (some (asc "out of fuel"), acc, s)
  | fuel + 1, s, acc =>
    if s.offset < s.data.length then
      if cur s = 0xf9 then (none, acc, adv s 1)
      else
        match decode fuel s with
        | (some e, _, s') => (some e, acc, s')
        | (none, v, s') => readArrayLoop fuel s' (acc ++ [v])
    else (none, acc, s)

end

/-- smile_decoder.go `readObject`. -/
def readObject (fuel : Nat) (s : DSt) : Option GoStr × JObj × DSt :=
  readObjectLoop fuel (adv s 1) []

/-- smile_decoder.go `readArray`. -/
def readArray (fuel : Nat) (s : DSt) : Option GoStr × List JVal × DSt :=
  readArrayLoop fuel (adv s 1) []

end smileDecoder

/-! ### Fallback string extraction and the `DecodeSMILE` wrapper
(`smile_decoder.go`, package-level functions) -/

/-- smile_decoder.go `contains`: prefix or suffix containment as written
in the source. -/
def containsGo (s substr : GoStr) : Bool :=
  substr.length ≤ s.length &&
    (s == substr || s.take substr.length == substr ||
      s.drop (s.length - substr.length) == substr)

/-- smile_decoder.go field-name list in `isLikelyFieldName`. -/
def commonFields : List GoStr :=
  [asc "matchlen", asc "flags", asc "date", asc "name", asc "player",
   asc "event", asc "location", asc "round", asc "comment", asc "site",
   asc "rating", asc "rank", asc "score", asc "points", asc "games"]

/-- smile_decoder.go `isLikelyFieldName`. -/
def isLikelyFieldName (s : GoStr) : Bool :=
  if s.length < 3 || s.length > 30 then false
  else commonFields.any fun f => s == f || containsGo s f

/-- Helper for smile_decoder.go `extractStrings`: collect maximal runs of
printable ASCII bytes of at least `minLen` bytes. -/
def extractGo : List Nat → List Nat → Nat → List GoStr
  | [], current, minLen => if minLen ≤ current.length then [current] else []
  | b :: r, current, minLen =>
    if 32 ≤ b ∧ b ≤ 126 then extractGo r (current ++ [b]) minLen
    else
      (if minLen ≤ current.length then [current] else []) ++ extractGo r [] minLen

/-- smile_decoder.go `extractStrings`. -/
def extractStrings (data : List Nat) (minLen : Nat) : List GoStr :=
  extractGo data [] minLen

/-- Helper for the indexed loop in `extractBasicInfo`: walk adjacent
string pairs, recording `strings[i] -> strings[i+1]` for likely field
names (`i+1 < len` always holds inside Go's loop bound). -/
def infoPairs : List GoStr → JObj → JObj
  | [], acc => acc
  | [_], acc => acc
  | a :: b :: rest, acc =>
    infoPairs (b :: rest) (if isLikelyFieldName a then mapSet acc a (.str b) else acc)

/-- smile_decoder.go `extractBasicInfo`: diagnostics map plus the
always-non-nil `full SMILE decoding not implemented` error (which
`DecodeSMILE` discards). -/
def extractBasicInfo (data : List Nat) : JObj × GoStr :=
  let r0 := mapSet [] (asc "_smileEncoded") (.bool true)
  let r1 := mapSet r0 (asc "_dataSize") (.int data.length)
  let strs := extractStrings data 4
  let r2 :=
    if 0 < strs.length then
      mapSet r1 (asc "_extractedStrings") (.arr ((strs.take (Nat.min 20 strs.length)).map .str))
    else r1
  let info := infoPairs strs []
  let r3 := if 0 < info.length then mapSet r2 (asc "_partialData") (.obj info) else r2
  (r3, asc "full SMILE decoding not implemented; partial data extracted")

/-- The initial cursor of `DecodeSMILE`: past the four header bytes when
the 3-byte magic is present, otherwise zero (the draft does not reject a
missing magic). -/
def dsInit (data : List Nat) : smileDecoder.DSt :=
  ⟨data,
    if data.getD 0 0 = 0x3a ∧ data.getD 1 0 = 0x29 ∧ data.getD 2 0 = 0x0a then 4 else 0,
    []⟩

/-- smile_decoder.go `DecodeSMILE`: decode, and on failure return the
`extractBasicInfo` diagnostics map enriched with `_decodeError` and
`_decodedOffset`; when a non-empty partial object was built it is
attached as `_partiallyDecoded` and the error is dropped, otherwise the
wrapped `SMILE decoding incomplete` error is returned alongside the
diagnostics.  The first component is the returned document
(`none` models Go's nil map, returned only for under-4-byte input). -/
def DecodeSMILE (fuel : Nat) (data : List Nat) : Option JObj × Option GoStr :=
  if data.length < 4 then (none, some (asc "data too short to be SMILE format"))
  else
    match smileDecoder.decode fuel (dsInit data) with
    | (some err, result, s1) =>
      let diag0 := (extractBasicInfo data).1
      let diag1 := mapSet diag0 (asc "_decodeError") (.str err)
      let diag2 := mapSet diag1 (asc "_decodedOffset") (.int s1.offset)
      match result with
      | .obj m =>
        if 0 < m.length then
          (some (mapSet diag2 (asc "_partiallyDecoded") (.obj m)), none)
        else (some diag2, some (asc "SMILE decoding incomplete: " ++ err))
      | _ => (some diag2, some (asc "SMILE decoding incomplete: " ++ err))
    | (none, result, _) =>
      match result with
      | .obj m => (some m, none)
      | v => (some [(asc "_data", v)], none)

/-! ### Container parser (`web.go` `ParseBGFFromReader`, `bgf_parser.go`
`ParseBGF`)

The container functions call three Go standard-library facilities that
are outside this repository: `encoding/json.Unmarshal` (for the header
line and for non-SMILE payloads) and `compress/gzip`.  They are passed in
as oracle functions (`hdrP`, `jsonP`, `gunzip`); the two gzip error
points of the Go code (`gzip.NewReader` and reading the stream) are
merged into one oracle failure, both being hard errors of the same
shape. -/

/-- The header fields of `Match` consumed by the container logic
(`format` and `version` are carried but never branched on). -/
structure Header where
  format : GoStr
  version : GoStr
  compress : Bool
  useSmile : Bool
deriving DecidableEq

/-- A decoded `Match`: header fields plus the `Data` map (`none` models a
nil Go map, i.e. `Data` never assigned). -/
structure Match where
  header : Header
  data : Option JObj

/-- The error classes produced by the container functions
(`ParseError` values distinguished by their message prefix). -/
inductive PErr : Type where
  | readHeader : PErr
  | parseHeader : PErr
  | gzipErr : PErr
  | smileErr (e : Smile.Err) : PErr
  | jsonErr : PErr
  | smileUnsupported : PErr
deriving DecidableEq

/-- Outcome of `ParseBGFFromReader`: a match, a hard error, or a Go
runtime panic escaping from the vendored decoder. -/
inductive PRes : Type where
  | ok (m : Match) : PRes
  | err (e : PErr) : PRes
  | panic (msg : String) : PRes

/-- `bufio.Reader.ReadBytes('\n')`: the header line including the newline
and the remaining bytes, or `none` when no newline occurs (Go returns the
data read so far together with `io.EOF`, which `ParseBGFFromReader`
treats as a hard error). -/
def splitHeader (input : List Nat) : Option (List Nat × List Nat) :=
  match input.findIdx? (· = 0x0a) with
  | none => none
  | some i => some (input.take (i + 1), input.drop (i + 1))

/-- The payload after optional decompression: `gunzip` when the header
sets `compress`, the raw rest otherwise. -/
def payloadOf (h : Header) (gunzip : List Nat → Except Unit (List Nat))
    (rest : List Nat) : Except Unit (List Nat) :=
  if h.compress then gunzip rest else .ok rest

/-- web.go lines 77–81: a map result becomes `match.Data`, any other
decoded value is wrapped under the `_data` key. -/
def mkMatch (h : Header) (v : JVal) : Match :=
  match v with
  | .obj m => ⟨h, some m⟩
  | v => ⟨h, some [(asc "_data", v)]⟩

/-- web.go `ParseBGFFromReader`: header line, header JSON, optional
gunzip, then `smile.Unmarshal` (when `useSmile`) or plain JSON decoding
of the payload.  Every stage failure is returned as a hard error with no
match. -/
def ParseBGFFromReader (hdrP : List Nat → Except Unit Header)
    (gunzip : List Nat → Except Unit (List Nat))
    (jsonP : List Nat → Except Unit JObj)
    (fuel : Nat) (input : List Nat) : PRes :=
  match splitHeader input with
  | none => .err .readHeader
  | some (line, rest) =>
    match hdrP line with
    | .error _ => .err .parseHeader
    | .ok h =>
      match payloadOf h gunzip rest with
      | .error _ => .err .gzipErr
      | .ok body =>
        if h.useSmile then
          match Smile.Unmarshal fuel body with
          | .err e => .err (.smileErr e)
          | .panic m => .panic m
          | .ok v _ => .ok (mkMatch h v)
        else
          match jsonP body with
          | .error _ => .err .jsonErr
          | .ok obj => .ok ⟨h, some obj⟩

/-- bgf_parser.go `ParseBGF` on the bytes of an opened file: the same
pipeline, except the `useSmile` branch returns the header-only match
together with the `SMILE encoding is not yet supported` error.  Go
returns the pair `(match, err)` with both components populated there, so
the result is the pair of options as returned. -/
def ParseBGF (hdrP : List Nat → Except Unit Header)
    (gunzip : List Nat → Except Unit (List Nat))
    (jsonP : List Nat → Except Unit JObj)
    (input : List Nat) : Option Match × Option PErr :=
  match splitHeader input with
  | none => (none, some .readHeader)
  | some (line, rest) =>
    match hdrP line with
    | .error _ => (none, some .parseHeader)
    | .ok h =>
      match payloadOf h gunzip rest with
      | .error _ => (none, some .gzipErr)
      | .ok body =>
        if h.useSmile then (some ⟨h, none⟩, some .smileUnsupported)
        else
          match jsonP body with
          | .error _ => (none, some .jsonErr)
          | .ok obj => (some ⟨h, some obj⟩, none)

/-! ### Concrete container fixtures used by counterexamples and witnesses

`headerLineX` is the container header line
`{"useSmile":true,"compress":false}` followed by the newline;
Go's `encoding/json` parses it into a `Match` with `UseSmile` true,
`Compress` false and empty `Format`/`Version`, which is what the header
oracle `hdrOracleX` returns for exactly this line. -/

def headerLineX : List Nat :=
  [0x7b] ++ asc "\x22useSmile\x22:true,\x22compress\x22:false" ++ [0x7d, 0x0a]

def hdrX : Header := ⟨[], [], false, true⟩

def hdrOracleX : List Nat → Except Unit Header :=
  fun line => if line = headerLineX then .ok hdrX else .error ()

/-- Oracle for stages that the fixture inputs never reach. -/
def failOracle {α : Type} : List Nat → Except Unit α := fun _ => .error ()

/-! ## Claims -/

/-- C4: for `shared.add`, a table already holding 1024 entries is cleared
before the next value is appended; consequently 1025 successive adds
starting from the empty table leave a table of length 1 whose index 0
holds the 1025th appended value. -/
theorem shared_add_reset :
    (∀ (s : shared) (v : GoStr), 1024 ≤ s.length → shared.add s v = [v]) ∧
    (∀ f : Nat → GoStr, (addSeq f 1025).length = 1 ∧ addSeq f 1025 = [f 1024]) := by
  constructor
  · intro s v h
    unfold shared.add
    simp [h]
  · intro f
    have h := addSeq_succ_top f
    exact ⟨by rw [h]; rfl, h⟩

/-- C4 witness: the reset clause at a concrete 1024-entry table, and the
1025-add sequence at a concrete value function. -/
theorem shared_add_reset_witness :
    shared.add (List.replicate 1024 [65]) [66] = [[66]] ∧
      addSeq (fun k => [k]) 1025 = [[1024]] :=
  ⟨shared_add_reset.1 _ _ (by rw [List.length_replicate]),
   (shared_add_reset.2 (fun k => [k])).2⟩

/-- C9 counterexample: the claim asserts the round trip for every 64-bit
signed integer, but at `i = 2 ^ 62` the decoder (arithmetic rather than
logical shift on `int64`) returns `-(2 ^ 62)`. -/
theorem zigZag_roundtrip_cex :
    toSigned64 (zigZagDecode (zigZagEncode (2 ^ 62))) = -(2 ^ 62) ∧
      (-(2 ^ 62) : Int) ≠ 2 ^ 62 := by
  constructor
  · decide
  · decide

/-- C9 (amended): `zigZagDecode` is `(v >> 1) ^ -(v & 1)` on `int64` with
Go's arithmetic shift, and it is a left inverse of the standard ZigZag
encoding exactly on the inputs whose encoding keeps the top bit clear,
i.e. for every `i` with `-(2 ^ 62) ≤ i < 2 ^ 62`. -/
theorem zigZag_roundtrip_range (i : Int) (h1 : -(2 ^ 62) ≤ i) (h2 : i < 2 ^ 62) :
    toSigned64 (zigZagDecode (zigZagEncode i)) = i := by
  by_cases hi : 0 ≤ i
  · have hn : zigZagEncode i = (2 * i).toNat := by simp [zigZagEncode, hi]
    rw [hn]
    set n : Nat := (2 * i).toNat with hndef
    have hni : (n : Int) = 2 * i := Int.toNat_of_nonneg (by omega)
    have hand : n &&& 1 = 0 := by rw [Nat.and_one_is_mod]; omega
    have hneg : neg64 0 = 0 := by norm_num [neg64]
    have hsar : sar1 n = n / 2 := by
      unfold sar1
      rw [if_neg (by omega : ¬ 2 ^ 63 ≤ n)]
      omega
    rw [zigZagDecode, hand, hneg, hsar, Nat.xor_zero]
    unfold toSigned64
    have hlt : n / 2 < 2 ^ 63 := by omega
    rw [if_pos hlt]
    omega
  · have hn : zigZagEncode i = (-2 * i - 1).toNat := by simp [zigZagEncode, hi]
    rw [hn]
    set n : Nat := (-2 * i - 1).toNat with hndef
    have hni : (n : Int) = -2 * i - 1 := Int.toNat_of_nonneg (by omega)
    have hand : n &&& 1 = 1 := by rw [Nat.and_one_is_mod]; omega
    have hneg : neg64 1 = 2 ^ 64 - 1 := by norm_num [neg64]
    have hsar : sar1 n = n / 2 := by
      unfold sar1
      rw [if_neg (by omega : ¬ 2 ^ 63 ≤ n)]
      omega
    have hxor := xor_all_ones 64 (n / 2) (by omega)
    rw [zigZagDecode, hand, hneg, hsar, hxor]
    unfold toSigned64
    have hge : ¬ (2 ^ 64 - 1 - n / 2) < 2 ^ 63 := by omega
    rw [if_neg hge]
    omega

/-- C9 witness: the amended round trip at `i = -5`. -/
theorem zigZag_roundtrip_witness :
    -(2 ^ 62) ≤ (-5 : Int) ∧ (-5 : Int) < 2 ^ 62 ∧
      toSigned64 (zigZagDecode (zigZagEncode (-5))) = -5 :=
  ⟨by norm_num, by norm_num, zigZag_roundtrip_range (-5) (by norm_num) (by norm_num)⟩

set_option maxRecDepth 4000 in
theorem smallInt_bounded : ∀ w : Nat, w ≤ 31 →
    -16 ≤ toSigned64 (zigZagDecode w) ∧ toSigned64 (zigZagDecode w) ≤ 15 := by
  decide

/-- C8 counterexample: at marker byte `0xc1` the draft decoder's
`readSmallInt` returns `0xc1 - 0xd0 = -15`, while ZigZag decoding of the
low five bits (the vendored rule, and what the claim asserts for every
byte in the range) gives `-1`. -/
theorem smallInt_cex :
    smileDecoder.readSmallInt ⟨[0xc1], 0, []⟩ =
      (none, .int (-15), ⟨[0xc1], 1, []⟩) ∧
    toSigned64 (zigZagDecode (0xc1 &&& 0x1f)) = -1 ∧ ((-15 : Int) ≠ -1) :=
  ⟨rfl, by decide, by decide⟩

/-- C8 (amended): the vendored decoder decodes every byte in the
small-integer range (`b &&& 0xe0 = 0xc0`) as ZigZag of the low five bits,
in `-16..15`, consuming no payload bytes beyond the marker; the draft
decoder's `readSmallInt` instead computes `int(b) - 0xd0`, also in
`-16..15` and also consuming only the marker byte, but a different
mapping. -/
theorem smallInt_decode (fuel b : Nat) (s : Smile.St) (t : smileDecoder.DSt)
    (hb : b &&& 0xe0 = 0xc0)
    (ht1 : 0xc0 ≤ smileDecoder.cur t) (ht2 : smileDecoder.cur t ≤ 0xdf) :
    Smile.valueInterface (fuel + 1) b s = .ok (.int (Smile.smallInt b)) s ∧
    Smile.smallInt b = toSigned64 (zigZagDecode (b &&& 0x1f)) ∧
    -16 ≤ Smile.smallInt b ∧ Smile.smallInt b ≤ 15 ∧
    smileDecoder.readSmallInt t =
      (none, .int ((smileDecoder.cur t : Int) - 0xd0), smileDecoder.adv t 1) ∧
    -16 ≤ (smileDecoder.cur t : Int) - 0xd0 ∧ (smileDecoder.cur t : Int) - 0xd0 ≤ 15 := by
  have hw : b &&& 0x1f ≤ 31 := Nat.and_le_right
  have hbounds := smallInt_bounded (b &&& 0x1f) hw
  refine ⟨?_, rfl, hbounds.1, hbounds.2, ?_, by omega, by omega⟩
  · simp only [Smile.valueInterface, hb]
    norm_num
  · unfold smileDecoder.readSmallInt
    rw [if_pos ⟨ht1, ht2⟩]

/-- C8 witness: the amended statement at byte `0xdf` for the vendored
decoder and a concrete draft-decoder state. -/
theorem smallInt_decode_witness :
    Smile.valueInterface 4 0xdf ⟨[], [], []⟩ =
      .ok (.int (Smile.smallInt 0xdf)) ⟨[], [], []⟩ ∧
    Smile.smallInt 0xdf = toSigned64 (zigZagDecode (0xdf &&& 0x1f)) ∧
    -16 ≤ Smile.smallInt 0xdf ∧ Smile.smallInt 0xdf ≤ 15 ∧
    smileDecoder.readSmallInt ⟨[0xc5], 0, []⟩ =
      (none, .int ((smileDecoder.cur ⟨[0xc5], 0, []⟩ : Int) - 0xd0),
        smileDecoder.adv ⟨[0xc5], 0, []⟩ 1) ∧
    -16 ≤ (smileDecoder.cur ⟨[0xc5], 0, []⟩ : Int) - 0xd0 ∧
    (smileDecoder.cur ⟨[0xc5], 0, []⟩ : Int) - 0xd0 ≤ 15 :=
  smallInt_decode 3 0xdf ⟨[], [], []⟩ ⟨[0xc5], 0, []⟩ (by decide) (by decide) (by decide)

/-- C1 counterexample: an out-of-range back-reference does not surface as
a structured decode error.  The draft decoder's `readSharedString` on
byte `0x05` with an empty table returns the placeholder string
`<shared#5>` with a nil error, and the vendored decoder's value-position
back-reference `0x01` with an empty value table is an unguarded slice
index, i.e. a runtime panic. -/
theorem shared_backref_cex :
    smileDecoder.readSharedString ⟨[0x05], 0, []⟩ =
      (none, asc "<shared#5>", ⟨[0x05], 1, []⟩) ∧
    Smile.valueInterface 9 0x01 ⟨[], [], []⟩ =
      .panic "runtime error: index out of range" :=
  ⟨rfl, rfl⟩

/-- C1 (amended): an out-of-range back-reference never yields a
structured recoverable error.  In the draft decoder `readSharedString`
returns the placeholder string `<shared#idx>` (embedding the index) with
a nil error; in the vendored decoder both the value-position lookup
(`d.sVals[b&0x1f-1]` in `valueInterface`) and the key-position lookup
(`d.sKeys[b&0x3f]` in `key`) are unchecked slice indexing and panic. -/
theorem shared_backref_out_of_range (s : smileDecoder.DSt)
    (fuel b bk : Nat) (v : Smile.St) (k : Smile.St)
    (hs : s.keys.length ≤ smileDecoder.cur s)
    (hb : b &&& 0xe0 = 0)
    (hv : v.sVals.length ≤ ((b &&& 0x1f) + 255) % 256)
    (hbk1 : 0x40 ≤ bk) (hbk2 : bk < 0x80)
    (hk : k.sKeys.length ≤ bk &&& 0x3f) :
    smileDecoder.readSharedString s =
      (none,
        asc "<shared#" ++ asc (toString (smileDecoder.cur s)) ++ asc ">",
        smileDecoder.adv s 1) ∧
    Smile.valueInterface (fuel + 1) b v = .panic "runtime error: index out of range" ∧
    Smile.keyF bk k = .panic "runtime error: index out of range" := by
  refine ⟨?_, ?_, ?_⟩
  · unfold smileDecoder.readSharedString
    rw [if_neg (by omega)]
  · simp only [Smile.valueInterface, hb]
    rw [List.get?_eq_none.2 hv]
    norm_num
  · unfold Smile.keyF
    rw [if_neg (by omega), if_neg (by omega), if_neg (by omega : ¬ (0x30 ≤ bk ∧ bk < 0x34)),
      if_pos ⟨hbk1, hbk2⟩, List.get?_eq_none.2 hk]

/-- C1 witness: the amended statement at concrete states (empty tables,
back-reference bytes `0x07`, `0x03` and key byte `0x42`). -/
theorem shared_backref_out_of_range_witness :
    smileDecoder.readSharedString ⟨[0x07], 0, []⟩ =
      (none,
        asc "<shared#" ++ asc (toString (smileDecoder.cur ⟨[0x07], 0, []⟩)) ++ asc ">",
        smileDecoder.adv ⟨[0x07], 0, []⟩ 1) ∧
    Smile.valueInterface 6 0x03 ⟨[], [], []⟩ =
      .panic "runtime error: index out of range" ∧
    Smile.keyF 0x42 ⟨[], [], []⟩ = .panic "runtime error: index out of range" :=
  shared_backref_out_of_range ⟨[0x07], 0, []⟩ 5 0x03 0x42 ⟨[], [], []⟩ ⟨[], [], []⟩
    (by decide) (by decide) (by decide) (by decide) (by decide) (by decide)

set_option maxRecDepth 4000 in
theorem and_hi_of_ge : ∀ b : Nat, b < 256 → 0x80 ≤ b → b &&& 0x80 = 0x80 := by
  decide

set_option maxRecDepth 4000 in
theorem and_hi_of_lt : ∀ b : Nat, b < 0x80 → b &&& 0x80 = 0 := by
  decide

set_option maxRecDepth 4000 in
theorem and_low7 : ∀ b : Nat, b < 0x80 → b &&& 0x7f = b := by
  decide

theorem toSigned64_small {w : Nat} (h : w < 2 ^ 63) : toSigned64 w = (w : Int) := by
  unfold toSigned64
  rw [if_pos h]

theorem readVIntAux_all_cont :
    ∀ (bs : List Nat) (result shift : Nat), (∀ b ∈ bs, 0x80 ≤ b ∧ b < 256) →
      shift + 7 * bs.length ≤ 28 →
      smileDecoder.readVIntAux bs result shift =
        (some (asc "unexpected end in VInt"), 0, bs.length) := by
  intro bs
  induction bs with
  | nil => intro result shift _ _; rfl
  | cons b tl ih =>
    intro result shift hall hlen
    have hb := hall b (by simp)
    have hcont : ¬ b &&& 0x80 = 0 := by
      rw [and_hi_of_ge b hb.2 hb.1]; norm_num
    have hguard : ¬ shift + 7 > 28 := by
      simp only [List.length_cons] at hlen
      omega
    have htl := ih (result ||| (b &&& 0x7f) <<< shift) (shift + 7)
      (fun x hx => hall x (by simp [hx]))
      (by simp only [List.length_cons] at hlen; omega)
    simp only [smileDecoder.readVIntAux, hcont, hguard, if_false, htl]
    simp

theorem intAux_zeros :
    ∀ k : Nat, Smile.intAux (List.replicate k 0 ++ [0x80]) 0 = some (0, []) := by
  intro k
  induction k with
  | zero => rfl
  | succ k ih =>
    rw [List.replicate_succ, List.cons_append]
    simp only [Smile.intAux]
    norm_num
    exact ih

/-- Modelled from the spec: `readVarUInt` per section 4.1 — the high bit
is a continuation flag (1 = more bytes follow, 0 = terminal byte carrying
the low 7 bits), accumulating 7 bits per byte most-significant-byte
first; `none` models the UnexpectedEnd / ValueTooLarge failures (buffer
exhausted before a terminal byte, or more than ~32 bits of continuation
bytes — 5 continuation bytes here).  The repository has no such reader;
this definition exists only to compare the spec wording against the two
implementations. -/
def readVarUIntSpecAux : List Nat → Nat → Nat → Option (Nat × Nat)
  | [], _, _ => none
  | b :: r, acc, count =>
    if b &&& 0x80 = 0 then some ((acc <<< 7) ||| b, count + 1)
    else if 4 ≤ count then none
    else readVarUIntSpecAux r ((acc <<< 7) ||| (b &&& 0x7f)) (count + 1)

/-- Modelled from the spec: see `readVarUIntSpecAux`. -/
def readVarUIntSpec (bytes : List Nat) : Option (Nat × Nat) :=
  readVarUIntSpecAux bytes 0 0

/-- C5 counterexample: the varint reader is not
most-significant-byte-first.  On `[0x81, 0x02]` the spec-modelled
MSB-first reader yields `130`, but the draft `readVInt` yields `257`
(least-significant group first), and the vendored `decodeState.int`
treats `0x81` — high bit set — as the terminal byte (consuming one byte
for the value pattern `1`) rather than as a continuation byte. -/
theorem varint_order_cex :
    smileDecoder.readVInt ⟨[0x81, 0x02], 0, []⟩ = (none, 257, ⟨[0x81, 0x02], 2, []⟩) ∧
    readVarUIntSpec [0x81, 0x02] = some (130, 2) ∧ (257 : Nat) ≠ 130 ∧
    Smile.intAux [0x81, 0x02] 0 = some (1, [0x02]) :=
  ⟨rfl, rfl, by decide, rfl⟩

/-- C5 (amended): the draft `readVInt` uses the high bit as a
continuation flag but accumulates 7 bits per byte least-significant group
first (a one-byte varint is its own value; in a two-byte varint the first
byte supplies the LOW 7 bits), fails with `unexpected end in VInt` when
the buffer is exhausted mid-varint (possible only for up to four
continuation bytes) and with `VInt too large` once five continuation
bytes are seen; the vendored `decodeState.int` instead treats a byte with
the high bit SET as the terminal byte carrying its low 6 bits,
accumulates most-significant group first, fails with `io.EOF` on
exhaustion, and has no size guard (any number of continuation bytes is
accepted). -/
theorem varint_semantics :
    (∀ (t : Nat) (rest : List Nat), t < 0x80 →
      smileDecoder.readVIntAux (t :: rest) 0 0 = (none, t, 1)) ∧
    (∀ (c t : Nat) (rest : List Nat), 0x80 ≤ c → c < 256 → t < 0x80 →
      smileDecoder.readVIntAux (c :: t :: rest) 0 0 =
        (none, t * 128 + (c &&& 0x7f), 2)) ∧
    (∀ (b1 b2 b3 b4 b5 : Nat) (rest : List Nat),
      0x80 ≤ b1 → 0x80 ≤ b2 → 0x80 ≤ b3 → 0x80 ≤ b4 → 0x80 ≤ b5 →
      b1 < 256 → b2 < 256 → b3 < 256 → b4 < 256 → b5 < 256 →
      smileDecoder.readVIntAux (b1 :: b2 :: b3 :: b4 :: b5 :: rest) 0 0 =
        (some (asc "VInt too large"), 0, 5)) ∧
    (∀ bs : List Nat, (∀ b ∈ bs, 0x80 ≤ b ∧ b < 256) → bs.length ≤ 4 →
      smileDecoder.readVIntAux bs 0 0 =
        (some (asc "unexpected end in VInt"), 0, bs.length)) ∧
    (∀ (t : Nat) (rest : List Nat) (ks vs : shared), 0x80 ≤ t → t < 256 →
      Smile.intF false ⟨t :: rest, ks, vs⟩ = .ok ((t &&& 0x3f : Nat) : Int) ⟨rest, ks, vs⟩) ∧
    (∀ (c t : Nat) (rest : List Nat) (ks vs : shared), c < 0x80 → 0x80 ≤ t →
      Smile.intF false ⟨c :: t :: rest, ks, vs⟩ =
        .ok ((c * 64 + (t &&& 0x3f) : Nat) : Int) ⟨rest, ks, vs⟩) ∧
    (∀ (k : Nat) (ks vs : shared),
      Smile.intF true ⟨List.replicate k 0 ++ [0x80], ks, vs⟩ = .ok 0 ⟨[], ks, vs⟩) ∧
    (∀ ks vs : shared, Smile.intF true ⟨[], ks, vs⟩ = .err .eof) := by
  have h63 : ∀ x : Nat, x &&& 0x3f ≤ 63 := fun x => Nat.and_le_right
  have h7f : ∀ x : Nat, x &&& 0x7f ≤ 127 := fun x => Nat.and_le_right
  refine ⟨?_, ?_, ?_, ?_, ?_, ?_, ?_, ?_⟩
  · intro t rest ht
    simp only [smileDecoder.readVIntAux, and_hi_of_lt t ht, and_low7 t ht]
    norm_num
  · intro c t rest hc1 hc2 ht
    have hc : ¬ c &&& 0x80 = 0 := by rw [and_hi_of_ge c hc2 hc1]; norm_num
    simp only [smileDecoder.readVIntAux, hc, and_hi_of_lt t ht, and_low7 t ht]
    norm_num
    rw [Nat.lor_comm, shl_or_eq_add 7 t (c &&& 0x7f) (by have := h7f c; norm_num; omega)]
    norm_num
  · intro b1 b2 b3 b4 b5 rest h1 h2 h3 h4 h5 k1 k2 k3 k4 k5
    have e1 : ¬ b1 &&& 0x80 = 0 := by rw [and_hi_of_ge b1 k1 h1]; norm_num
    have e2 : ¬ b2 &&& 0x80 = 0 := by rw [and_hi_of_ge b2 k2 h2]; norm_num
    have e3 : ¬ b3 &&& 0x80 = 0 := by rw [and_hi_of_ge b3 k3 h3]; norm_num
    have e4 : ¬ b4 &&& 0x80 = 0 := by rw [and_hi_of_ge b4 k4 h4]; norm_num
    have e5 : ¬ b5 &&& 0x80 = 0 := by rw [and_hi_of_ge b5 k5 h5]; norm_num
    simp only [smileDecoder.readVIntAux, e1, e2, e3, e4, e5]
    norm_num
  · intro bs hall hlen
    exact readVIntAux_all_cont bs 0 0 hall (by omega)
  · intro t rest ks vs ht1 ht2
    have hc : 0x80 ≤ t := ht1
    unfold Smile.intF
    simp only [Smile.intAux, if_pos hc]
    have hm : (0 <<< 6 ||| (t &&& 0x3f)) % 2 ^ 64 = t &&& 0x3f := by
      have := h63 t
      rw [Nat.zero_shiftLeft, Nat.zero_or]
      omega
    rw [hm]
    simp only [Bool.false_eq_true, if_false]
    rw [toSigned64_small (by have := h63 t; omega)]
  · intro c t rest ks vs hc ht
    have hcc : ¬ 0x80 ≤ c := by omega
    unfold Smile.intF
    simp only [Smile.intAux, hcc, if_false, if_pos ht]
    have hstep : (0 <<< 7 ||| c) % 2 ^ 64 = c := by
      rw [Nat.zero_shiftLeft, Nat.zero_or]
      omega
    rw [hstep]
    have hm : (c <<< 6 ||| (t &&& 0x3f)) % 2 ^ 64 = c * 64 + (t &&& 0x3f) := by
      rw [shl_or_eq_add 6 c (t &&& 0x3f) (by have := h63 t; norm_num; omega)]
      have := h63 t
      have : c * 64 + (t &&& 0x3f) < 2 ^ 64 := by omega
      omega
    rw [hm]
    simp only [Bool.false_eq_true, if_false]
    rw [toSigned64_small (by have := h63 t; omega)]
  · intro k ks vs
    unfold Smile.intF
    rw [intAux_zeros k]
    norm_num [zigZagDecode, sar1, neg64, toSigned64]
  · intro ks vs
    rfl

/-- C5 witness: the amended statements at concrete bytes: terminal
`[0x05]`, pair `[0x81, 0x02]`, five continuation bytes, a truncated
two-continuation-byte buffer, vendored terminal `[0x85]`, vendored pair
`[0x01, 0x85]`, one hundred continuation zeros, and the empty buffer. -/
theorem varint_semantics_witness :
    smileDecoder.readVIntAux [0x05] 0 0 = (none, 0x05, 1) ∧
    smileDecoder.readVIntAux [0x81, 0x02] 0 0 = (none, 2 * 128 + (0x81 &&& 0x7f), 2) ∧
    smileDecoder.readVIntAux [0x80, 0x81, 0x82, 0x83, 0x84] 0 0 =
      (some (asc "VInt too large"), 0, 5) ∧
    smileDecoder.readVIntAux [0x80, 0x81] 0 0 =
      (some (asc "unexpected end in VInt"), 0, [0x80, 0x81].length) ∧
    Smile.intF false ⟨[0x85], [], []⟩ = .ok ((0x85 &&& 0x3f : Nat) : Int) ⟨[], [], []⟩ ∧
    Smile.intF false ⟨[0x01, 0x85], [], []⟩ =
      .ok ((0x01 * 64 + (0x85 &&& 0x3f) : Nat) : Int) ⟨[], [], []⟩ ∧
    Smile.intF true ⟨List.replicate 100 0 ++ [0x80], [], []⟩ = .ok 0 ⟨[], [], []⟩ ∧
    Smile.intF true ⟨[], [], []⟩ = .err .eof :=
  ⟨varint_semantics.1 0x05 [] (by decide),
   varint_semantics.2.1 0x81 0x02 [] (by decide) (by decide) (by decide),
   varint_semantics.2.2.1 0x80 0x81 0x82 0x83 0x84 [] (by decide) (by decide)
     (by decide) (by decide) (by decide) (by decide) (by decide) (by decide)
     (by decide) (by decide),
   varint_semantics.2.2.2.1 [0x80, 0x81] (by decide) (by decide),
   varint_semantics.2.2.2.2.1 0x85 [] [] [] (by decide) (by decide),
   varint_semantics.2.2.2.2.2.1 0x01 0x85 [] [] [] (by decide) (by decide),
   varint_semantics.2.2.2.2.2.2.1 100 [] [],
   varint_semantics.2.2.2.2.2.2.2 [] []⟩

theorem be4_eq (a b c d : Nat) (hb : b < 256) (hc : c < 256) (hd : d < 256) :
    a <<< 24 ||| b <<< 16 ||| c <<< 8 ||| d = ((a * 256 + b) * 256 + c) * 256 + d := by
  simp only [Nat.lor_assoc]
  rw [shl_or_eq_add 8 c d (by norm_num; omega)]
  rw [shl_or_eq_add 16 b (c * 2 ^ 8 + d) (by norm_num; omega)]
  rw [shl_or_eq_add 24 a (b * 2 ^ 16 + (c * 2 ^ 8 + d)) (by norm_num; omega)]
  ring

theorem be8_eq (a b c d e f g h : Nat) (hb : b < 256) (hc : c < 256) (hd : d < 256)
    (he : e < 256) (hf : f < 256) (hg : g < 256) (hh : h < 256) :
    a <<< 56 ||| b <<< 48 ||| c <<< 40 ||| d <<< 32 ||| e <<< 24 ||| f <<< 16 |||
      g <<< 8 ||| h =
    ((((((a * 256 + b) * 256 + c) * 256 + d) * 256 + e) * 256 + f) * 256 + g) * 256 + h := by
  simp only [Nat.lor_assoc]
  rw [shl_or_eq_add 8 g h (by norm_num; omega)]
  rw [shl_or_eq_add 16 f (g * 2 ^ 8 + h) (by norm_num; omega)]
  rw [shl_or_eq_add 24 e (f * 2 ^ 16 + (g * 2 ^ 8 + h)) (by norm_num; omega)]
  rw [shl_or_eq_add 32 d (e * 2 ^ 24 + (f * 2 ^ 16 + (g * 2 ^ 8 + h))) (by norm_num; omega)]
  rw [shl_or_eq_add 40 c (d * 2 ^ 32 + (e * 2 ^ 24 + (f * 2 ^ 16 + (g * 2 ^ 8 + h))))
    (by norm_num; omega)]
  rw [shl_or_eq_add 48 b
    (c * 2 ^ 40 + (d * 2 ^ 32 + (e * 2 ^ 24 + (f * 2 ^ 16 + (g * 2 ^ 8 + h)))))
    (by norm_num; omega)]
  rw [shl_or_eq_add 56 a
    (b * 2 ^ 48 + (c * 2 ^ 40 + (d * 2 ^ 32 + (e * 2 ^ 24 + (f * 2 ^ 16 +
      (g * 2 ^ 8 + h))))))
    (by norm_num; omega)]
  ring

/-- 7-bit big-endian accumulation, for stating what the vendored
`float64` assembles from its ten payload bytes. -/
def be7 (l : List Nat) : Nat := l.foldl (fun a b => a * 128 + b) 0

theorem f64Aux_sum : ∀ (bs : List Nat), (∀ b ∈ bs, b < 128) → bs.length ≤ 9 →
    ∀ (bits : Nat) (rest : List Nat), bits < 2 ^ (64 - 7 * bs.length) →
    Smile.f64Aux bs.length bits (bs ++ rest) =
      some (bs.foldl (fun a b => a * 128 + b) bits, rest) := by
  intro bs
  induction bs with
  | nil => intro _ _ bits rest _; rfl
  | cons b tl ih =>
    intro hall hlen bits rest hbits
    have hb : b < 128 := hall b (by simp)
    have hlen' : tl.length ≤ 9 := by simp at hlen; omega
    have hor : bits <<< 7 ||| b = bits * 128 + b := by
      have := shl_or_eq_add 7 bits b (by norm_num; omega)
      norm_num at this ⊢
      omega
    have hexp : 64 - 7 * tl.length = (64 - 7 * (tl.length + 1)) + 7 := by
      simp only [List.length_cons] at hlen
      omega
    have hpow : 2 ^ (64 - 7 * tl.length) = 2 ^ (64 - 7 * (tl.length + 1)) * 128 := by
      rw [hexp, pow_add]
      norm_num
    have hnext : bits * 128 + b < 2 ^ (64 - 7 * tl.length) := by
      simp only [List.length_cons] at hbits
      omega
    have hlt64 : bits * 128 + b < 2 ^ 64 := by
      have hle : 2 ^ (64 - 7 * tl.length) ≤ 2 ^ 64 :=
        Nat.pow_le_pow_right (by norm_num) (by omega)
      omega
    have hmod : (bits <<< 7 ||| b) % 2 ^ 64 = bits * 128 + b := by
      rw [hor]
      omega
    simp only [List.length_cons, List.cons_append, Smile.f64Aux, hmod]
    exact ih (fun x hx => hall x (by simp [hx])) hlen' (bits * 128 + b) rest hnext

/-- Modelled from the spec: "float64 (8 raw bytes)" — a reader taking
exactly eight raw payload bytes and assembling the IEEE-754 bit pattern
big-endian.  The repository's vendored decoder does not do this; the
definition exists only to compare the spec wording against it. -/
def readFloat64Spec : List Nat → Option (Nat × List Nat)
  | b1 :: b2 :: b3 :: b4 :: b5 :: b6 :: b7 :: b8 :: rest =>
    some (((((((b1 * 256 + b2) * 256 + b3) * 256 + b4) * 256 + b5) * 256 + b6) * 256 +
      b7) * 256 + b8, rest)
  | _ => none

/-- C6 counterexample: the vendored decoder's `float64` consumes ten
payload bytes and assembles them 7 bits at a time — on
`[1,0,0,0,0,0,0,0,0,0]` it consumes all ten bytes and produces the bit
pattern `2 ^ 63`, whereas the claimed 8-raw-byte big-endian read consumes
eight bytes and produces `2 ^ 56` — and its `float32` is a hard
`not implemented` error rather than a 4-byte read. -/
theorem float_raw_cex :
    Smile.float64F ⟨[1, 0, 0, 0, 0, 0, 0, 0, 0, 0], [], []⟩ = .ok (2 ^ 63) ⟨[], [], []⟩ ∧
    readFloat64Spec [1, 0, 0, 0, 0, 0, 0, 0, 0, 0] = some (2 ^ 56, [0, 0]) ∧
    (2 ^ 63 : Nat) ≠ 2 ^ 56 ∧
    Smile.float32F ⟨[0, 0, 0, 0], [], []⟩ = .err (.notImpl "float32") :=
  ⟨rfl, by norm_num [readFloat64Spec], by norm_num, rfl⟩

/-- C6 (amended): the draft decoder's `readFloat32` / `readFloat64` read
exactly 4 / 8 raw payload bytes after the marker and assemble the
IEEE-754 bit pattern big-endian; the vendored decoder instead has no
working float32 path (`not implemented` error) and its `float64` reads
exactly TEN payload bytes, accumulating 7 bits per byte (`be7`), so
neither vendored float encoding is a raw 4- or 8-byte read. -/
theorem float_encodings :
    (∀ s : smileDecoder.DSt, s.offset + 5 ≤ s.data.length →
      s.data.getD (s.offset + 1) 0 < 256 → s.data.getD (s.offset + 2) 0 < 256 →
      s.data.getD (s.offset + 3) 0 < 256 → s.data.getD (s.offset + 4) 0 < 256 →
      smileDecoder.readFloat32 s =
        (none,
          .f32bits ((((s.data.getD (s.offset + 1) 0) * 256 + s.data.getD (s.offset + 2) 0) *
            256 + s.data.getD (s.offset + 3) 0) * 256 + s.data.getD (s.offset + 4) 0),
          smileDecoder.adv s 5)) ∧
    (∀ s : smileDecoder.DSt, s.offset + 9 ≤ s.data.length →
      s.data.getD (s.offset + 1) 0 < 256 → s.data.getD (s.offset + 2) 0 < 256 →
      s.data.getD (s.offset + 3) 0 < 256 → s.data.getD (s.offset + 4) 0 < 256 →
      s.data.getD (s.offset + 5) 0 < 256 → s.data.getD (s.offset + 6) 0 < 256 →
      s.data.getD (s.offset + 7) 0 < 256 → s.data.getD (s.offset + 8) 0 < 256 →
      smileDecoder.readFloat64 s =
        (none,
          .f64bits ((((((((s.data.getD (s.offset + 1) 0) * 256 +
            s.data.getD (s.offset + 2) 0) * 256 + s.data.getD (s.offset + 3) 0) * 256 +
            s.data.getD (s.offset + 4) 0) * 256 + s.data.getD (s.offset + 5) 0) * 256 +
            s.data.getD (s.offset + 6) 0) * 256 + s.data.getD (s.offset + 7) 0) * 256 +
            s.data.getD (s.offset + 8) 0),
          smileDecoder.adv s 9)) ∧
    (∀ (b1 b2 b3 b4 b5 b6 b7 b8 b9 b10 : Nat) (rest : List Nat) (ks vs : shared),
      b1 ≤ 1 → b2 < 128 → b3 < 128 → b4 < 128 → b5 < 128 → b6 < 128 → b7 < 128 →
      b8 < 128 → b9 < 128 → b10 < 128 →
      Smile.float64F ⟨[b1, b2, b3, b4, b5, b6, b7, b8, b9, b10] ++ rest, ks, vs⟩ =
        .ok (be7 [b1, b2, b3, b4, b5, b6, b7, b8, b9, b10]) ⟨rest, ks, vs⟩) ∧
    (∀ s : Smile.St, Smile.float32F s = .err (.notImpl "float32")) := by
  refine ⟨?_, ?_, ?_, fun s => rfl⟩
  · intro s hlen h1 h2 h3 h4
    unfold smileDecoder.readFloat32 smileDecoder.adv
    simp only
    rw [if_neg (by omega)]
    simp only [show s.offset + 1 + 1 = s.offset + 2 by omega,
      show s.offset + 1 + 2 = s.offset + 3 by omega,
      show s.offset + 1 + 3 = s.offset + 4 by omega,
      show s.offset + 1 + 4 = s.offset + 5 by omega]
    rw [be4_eq _ _ _ _ h2 h3 h4]
  · intro s hlen h1 h2 h3 h4 h5 h6 h7 h8
    unfold smileDecoder.readFloat64 smileDecoder.adv
    simp only
    rw [if_neg (by omega)]
    simp only [show s.offset + 1 + 1 = s.offset + 2 by omega,
      show s.offset + 1 + 2 = s.offset + 3 by omega,
      show s.offset + 1 + 3 = s.offset + 4 by omega,
      show s.offset + 1 + 4 = s.offset + 5 by omega,
      show s.offset + 1 + 5 = s.offset + 6 by omega,
      show s.offset + 1 + 6 = s.offset + 7 by omega,
      show s.offset + 1 + 7 = s.offset + 8 by omega,
      show s.offset + 1 + 8 = s.offset + 9 by omega]
    rw [be8_eq _ _ _ _ _ _ _ _ h2 h3 h4 h5 h6 h7 h8]
  · intro b1 b2 b3 b4 b5 b6 b7 b8 b9 b10 rest ks vs hb1 hb2 hb3 hb4 hb5 hb6 hb7 hb8 hb9 hb10
    unfold Smile.float64F
    have hstep : Smile.f64Aux 10 0 ([b1, b2, b3, b4, b5, b6, b7, b8, b9, b10] ++ rest) =
        Smile.f64Aux 9 ((0 <<< 7 ||| b1) % 2 ^ 64) ([b2, b3, b4, b5, b6, b7, b8, b9, b10] ++ rest) :=
      rfl
    have hmod0 : (0 <<< 7 ||| b1) % 2 ^ 64 = b1 := by
      rw [Nat.zero_shiftLeft, Nat.zero_or]
      omega
    have hrest := f64Aux_sum [b2, b3, b4, b5, b6, b7, b8, b9, b10]
      (by intro x hx; simp at hx; rcases hx with h | h | h | h | h | h | h | h | h <;> omega)
      (by simp) b1 rest (by show b1 < 2 ^ (64 - 7 * 9); norm_num; omega)
    simp only [List.length_cons, List.length_nil] at hrest
    rw [hstep, hmod0, hrest]
    simp only [be7, List.foldl_cons, Nat.zero_mul, Nat.zero_add]

/-- C6 witness: the amended statements on a concrete state holding the
bytes `0x41 0x20 0x00 0x00` after a marker (a float32 payload), the
bytes of a float64 payload, and ten 7-bit bytes for the vendored
decoder. -/
theorem float_encodings_witness :
    smileDecoder.readFloat32 ⟨[0xe9, 0x41, 0x20, 0x00, 0x00], 0, []⟩ =
      (none, .f32bits 1092616192, ⟨[0xe9, 0x41, 0x20, 0x00, 0x00], 5, []⟩) ∧
    Smile.float64F ⟨[1, 0x40, 0, 0, 0, 0, 0, 0, 0, 0] ++ [0x55], [], []⟩ =
      .ok (be7 [1, 0x40, 0, 0, 0, 0, 0, 0, 0, 0]) ⟨[0x55], [], []⟩ ∧
    Smile.float32F ⟨[], [], []⟩ = .err (.notImpl "float32") := by
  refine ⟨?_, ?_, float_encodings.2.2.2 ⟨[], [], []⟩⟩
  · exact float_encodings.1 ⟨[0xe9, 0x41, 0x20, 0x00, 0x00], 0, []⟩
      (by decide) (by decide) (by decide) (by decide) (by decide)
  · exact float_encodings.2.2.1 1 0x40 0 0 0 0 0 0 0 0 [0x55] [] []
      (by decide) (by decide) (by decide) (by decide) (by decide) (by decide)
      (by decide) (by decide) (by decide) (by decide)

/-- C3 counterexample: decoding the object `[0xfa, 0x21, 0x61, 0x62,
0x3f]` (key `"ab"`, then a truncated tiny-string value) does not omit the
failing key: the partial object binds key `"ab"` to the placeholder
string `<decode error: string extends beyond data>`. -/
theorem object_error_value_cex :
    smileDecoder.decode 9 ⟨[0xfa, 0x21, 0x61, 0x62, 0x3f], 0, []⟩ =
      (some (asc "string extends beyond data"),
        .obj [([0x61, 0x62], .str (asc "<decode error: string extends beyond data>"))],
        ⟨[0xfa, 0x21, 0x61, 0x62, 0x3f], 5, []⟩) ∧
    mapGet [([0x61, 0x62], .str (asc "<decode error: string extends beyond data>"))]
        (asc "ab") =
      some (.str (asc "<decode error: string extends beyond data>")) :=
  ⟨rfl, rfl⟩

/-- C3 (amended): when the value of the next key fails to decode, the
draft `readObject` loop returns the map holding exactly the earlier
successfully decoded pairs PLUS the failing key bound to the placeholder
string `<decode error: ..>`, together with the error and the decoder
state at the failure point (whose offset is what `DecodeSMILE` reports as
`_decodedOffset`). -/
theorem object_error_value (fuel : Nat) (s s1 s2 : smileDecoder.DSt)
    (m : JObj) (k e : GoStr) (v : JVal)
    (hlen : s.offset < s.data.length)
    (hb1 : smileDecoder.cur s ≠ 0xfb) (hb2 : smileDecoder.cur s ≠ 0xf9)
    (hkey : smileDecoder.readObjectKey (smileDecoder.cur s) s = (none, k, s1))
    (hval : smileDecoder.decode fuel s1 = (some e, v, s2)) :
    smileDecoder.readObjectLoop (fuel + 1) s m =
      (some e, mapSet m k (.str (asc "<decode error: " ++ e ++ asc ">")), s2) := by
  simp only [smileDecoder.readObjectLoop, if_pos hlen, if_neg hb1, if_neg hb2, hkey, hval]

/-- C3 witness: the amended statement after three successfully decoded
pairs of the object `{"a": -14, "b": -13, "c": -12, "d": <truncated>}` —
the loop state at the fourth pair, carrying the three earlier pairs,
ends with exactly those three pairs plus the failing key `"d"` bound to
the placeholder, and the failure offset 13 is the truncation point of
the 13-byte buffer. -/
theorem object_error_value_witness :
    smileDecoder.readObjectLoop 16
        ⟨[0xfa, 0x20, 0x61, 0xc2, 0x20, 0x62, 0xc3, 0x20, 0x63, 0xc4, 0x20, 0x64, 0x3f], 10, []⟩
        [([0x61], .int (-14)), ([0x62], .int (-13)), ([0x63], .int (-12))] =
      (some (asc "string extends beyond data"),
        mapSet [([0x61], .int (-14)), ([0x62], .int (-13)), ([0x63], .int (-12))]
          [0x64] (.str (asc "<decode error: " ++ asc "string extends beyond data" ++ asc ">")),
        ⟨[0xfa, 0x20, 0x61, 0xc2, 0x20, 0x62, 0xc3, 0x20, 0x63, 0xc4, 0x20, 0x64, 0x3f], 13, []⟩) :=
  object_error_value 15
    ⟨[0xfa, 0x20, 0x61, 0xc2, 0x20, 0x62, 0xc3, 0x20, 0x63, 0xc4, 0x20, 0x64, 0x3f], 10, []⟩
    ⟨[0xfa, 0x20, 0x61, 0xc2, 0x20, 0x62, 0xc3, 0x20, 0x63, 0xc4, 0x20, 0x64, 0x3f], 12, []⟩
    ⟨[0xfa, 0x20, 0x61, 0xc2, 0x20, 0x62, 0xc3, 0x20, 0x63, 0xc4, 0x20, 0x64, 0x3f], 13, []⟩
    [([0x61], .int (-14)), ([0x62], .int (-13)), ([0x63], .int (-12))]
    [0x64] (asc "string extends beyond data") (.str [])
    (by decide) (by decide) (by decide) rfl rfl

/-- Does a decoded value type-assert to a non-empty
`map[string]interface{}`, as tested by `DecodeSMILE`? -/
def isNonEmptyObj : JVal → Bool
  | .obj m => decide (0 < m.length)
  | _ => false

/-- C2 counterexample: after a valid magic and header byte, both
top-level entry points can return an error outcome.  The vendored
`Unmarshal` on `:)\n` + version byte with an empty payload propagates
`io.EOF` (no document at all), and the draft `DecodeSMILE` on a payload
whose first token is a stray end-object marker returns a non-nil
`SMILE decoding incomplete` error. -/
theorem decode_toplevel_cex :
    Smile.Unmarshal 9 [0x3a, 0x29, 0x0a, 0x00] = .err .eof ∧
    (DecodeSMILE 9 [0x3a, 0x29, 0x0a, 0x00, 0xfb]).2 =
      some (asc "SMILE decoding incomplete: unexpected end marker: 0xfb") :=
  ⟨rfl, rfl⟩

/-- C2 (amended): the top-level decode entry points do propagate
failures.  The vendored `Unmarshal` returns any post-header decode error
unchanged (discarding everything decoded so far); the draft `DecodeSMILE`
always returns a document for payloads of at least four bytes, but its
error component is nil exactly when either the decode succeeded or the
failing decode left a non-empty partial object (attached as
`_partiallyDecoded`) — in every other failing case a non-nil error is
returned alongside the diagnostics document. -/
theorem decode_toplevel_outcomes :
    (∀ (fuel : Nat) (data : List Nat) (e : Smile.Err),
      4 ≤ data.length → data.take 3 = [0x3a, 0x29, 0x0a] → data.getD 3 0 / 16 = 0 →
      Smile.value fuel ⟨data.drop 4, [], []⟩ = .err e →
      Smile.Unmarshal fuel data = .err e) ∧
    (∀ (fuel : Nat) (data : List Nat), 4 ≤ data.length →
      (DecodeSMILE fuel data).1.isSome = true ∧
      ((DecodeSMILE fuel data).2 = none ↔
        ((smileDecoder.decode fuel (dsInit data)).1 = none ∨
          isNonEmptyObj (smileDecoder.decode fuel (dsInit data)).2.1 = true))) := by
  constructor
  · intro fuel data e hlen hmagic hver hval
    unfold Smile.Unmarshal
    rw [if_neg (by push_neg; exact ⟨by omega, hmagic⟩)]
    simp only [hver, ne_eq, not_true_eq_false, if_false, ite_false]
    simpa using hval
  · intro fuel data hlen
    unfold DecodeSMILE
    rw [if_neg (by omega)]
    rcases hdec : smileDecoder.decode fuel (dsInit data) with ⟨e, v, s1⟩
    rcases e with _ | err
    · cases v <;> simp [isNonEmptyObj]
    · rcases v with _ | b | n | str | xs | m | n | w | w
      case obj =>
        by_cases hm : 0 < m.length
        · simp [isNonEmptyObj, hm]
        · simp [isNonEmptyObj, hm]
      all_goals simp [isNonEmptyObj]

/-- C2 witness: the amended statements at concrete inputs — `Unmarshal`
propagating `io.EOF` on a truncated payload, and `DecodeSMILE` on an
empty-object payload (success, nil error) and on the stray-end-marker
payload (non-nil error). -/
theorem decode_toplevel_outcomes_witness :
    Smile.Unmarshal 9 [0x3a, 0x29, 0x0a, 0x00] = .err .eof ∧
    ((DecodeSMILE 9 [0x3a, 0x29, 0x0a, 0x00, 0xfa, 0xfb]).1.isSome = true ∧
      ((DecodeSMILE 9 [0x3a, 0x29, 0x0a, 0x00, 0xfa, 0xfb]).2 = none ↔
        ((smileDecoder.decode 9 (dsInit [0x3a, 0x29, 0x0a, 0x00, 0xfa, 0xfb])).1 = none ∨
          isNonEmptyObj
            (smileDecoder.decode 9 (dsInit [0x3a, 0x29, 0x0a, 0x00, 0xfa, 0xfb])).2.1 =
            true))) :=
  ⟨decode_toplevel_outcomes.1 9 [0x3a, 0x29, 0x0a, 0x00] .eof (by decide) (by decide)
     (by decide) rfl,
   decode_toplevel_outcomes.2 9 [0x3a, 0x29, 0x0a, 0x00, 0xfa, 0xfb] (by decide)⟩

/-- Container fixture: the header line followed by a SMILE payload with
valid magic and version whose single value token `0xfc` is not a valid
value type. -/
def inputBadToken : List Nat := headerLineX ++ [0x3a, 0x29, 0x0a, 0x00, 0xfc]

/-- C7 counterexample: a hard failure outside the claim's list.  On
`inputBadToken` the header line is readable, the header parses
(`useSmile` true, `compress` false), the SMILE magic and version nibble
are valid — yet `ParseBGFFromReader` returns a hard error with no
document, because the post-magic token `0xfc` fails to decode. -/
theorem container_hard_error_cex :
    ParseBGFFromReader hdrOracleX failOracle failOracle 9 inputBadToken =
      .err (.smileErr (.unexpectedValue 0xfc)) ∧
    hdrOracleX headerLineX = .ok hdrX ∧
    hdrX.compress = false ∧
    (inputBadToken.drop headerLineX.length).take 3 = [0x3a, 0x29, 0x0a] ∧
    (inputBadToken.drop headerLineX.length).getD 3 0 / 16 = 0 :=
  ⟨rfl, rfl, rfl, rfl, rfl⟩

/-- C7 (amended): the container parse is a hard failure (error, no
document) exactly when the header line is unreadable, or the header JSON
fails to parse, or (with `compress` set) decompression fails, or — with
`useSmile` set — the SMILE decode fails with ANY error (which includes
bad magic and unsupported version, but equally every post-magic token
failure), or — without `useSmile` — the payload fails to parse as plain
JSON.  The hard-failure set is therefore strictly larger than the
claimed pre-payload list. -/
theorem container_hard_error_iff (hdrP : List Nat → Except Unit Header)
    (gz : List Nat → Except Unit (List Nat)) (jsonP : List Nat → Except Unit JObj)
    (fuel : Nat) (input : List Nat) :
    (∃ e, ParseBGFFromReader hdrP gz jsonP fuel input = .err e) ↔
      (splitHeader input = none ∨
        ∃ line rest, splitHeader input = some (line, rest) ∧
          (hdrP line = .error () ∨
            ∃ h, hdrP line = .ok h ∧
              (payloadOf h gz rest = .error () ∨
                ∃ body, payloadOf h gz rest = .ok body ∧
                  ((h.useSmile = true ∧ ∃ e, Smile.Unmarshal fuel body = .err e) ∨
                    (h.useSmile = false ∧ jsonP body = .error ()))))) := by
  unfold ParseBGFFromReader
  constructor
  · rintro ⟨e, he⟩
    split at he
    · rename_i heq
      exact Or.inl heq
    · rename_i line rest heq
      split at he
      · rename_i u hh
        rcases u
        exact Or.inr ⟨line, rest, heq, Or.inl hh⟩
      · rename_i h hh
        split at he
        · rename_i u hp
          rcases u
          exact Or.inr ⟨line, rest, heq, Or.inr ⟨h, hh, Or.inl hp⟩⟩
        · rename_i body hp
          split at he
          · rename_i hus
            split at he
            · rename_i e2 hu
              exact Or.inr ⟨line, rest, heq,
                Or.inr ⟨h, hh, Or.inr ⟨body, hp, Or.inl ⟨hus, e2, hu⟩⟩⟩⟩
            · exact PRes.noConfusion he
            · exact PRes.noConfusion he
          · rename_i hus
            split at he
            · rename_i u hj
              rcases u
              exact Or.inr ⟨line, rest, heq,
                Or.inr ⟨h, hh, Or.inr ⟨body, hp, Or.inr ⟨Bool.eq_false_iff.mpr hus, hj⟩⟩⟩⟩
            · exact PRes.noConfusion he
  · rintro (heq | ⟨line, rest, heq, hcase⟩)
    · exact ⟨.readHeader, by simp [heq]⟩
    · rcases hcase with hh | ⟨h, hh, hcase⟩
      · exact ⟨.parseHeader, by simp [heq, hh]⟩
      · rcases hcase with hp | ⟨body, hp, hcase⟩
        · exact ⟨.gzipErr, by simp [heq, hh, hp]⟩
        · rcases hcase with ⟨hus, e, hu⟩ | ⟨husf, hj⟩
          · exact ⟨.smileErr e, by simp [heq, hh, hp, hus, hu]⟩
          · exact ⟨.jsonErr, by simp [heq, hh, hp, husf, hj]⟩

/-- Container fixture: the header line followed by the SMILE encoding of
the empty object (magic, version byte, `0xfa 0xfb`). -/
def inputEmptyObj : List Nat := headerLineX ++ [0x3a, 0x29, 0x0a, 0x00, 0xfa, 0xfb]

/-- C10: on any input whose header parses with `useSmile` set and whose
payload stage yields bytes (uncompressed, or decompressed successfully),
the file-based `ParseBGF` returns the header-only match (`Data` nil)
together with the non-nil `SMILE not supported` error, independently of
those payload bytes — it never decodes them; `ParseBGFFromReader`
decodes the same bytes through the vendored smile package — on the
concrete container `inputEmptyObj` it succeeds with a decoded
(empty-object) `Data`, while `ParseBGF` refuses it, so the two entry
points are not equivalent on SMILE inputs. -/
theorem parseBGF_smile_unsupported
    (hdrP : List Nat → Except Unit Header) (gz : List Nat → Except Unit (List Nat))
    (jsonP : List Nat → Except Unit JObj) (input line rest body : List Nat) (h : Header)
    (hsplit : splitHeader input = some (line, rest))
    (hh : hdrP line = .ok h) (hs : h.useSmile = true)
    (hbody : payloadOf h gz rest = .ok body) :
    ParseBGF hdrP gz jsonP input = (some ⟨h, none⟩, some .smileUnsupported) ∧
    ParseBGFFromReader hdrOracleX failOracle failOracle 9 inputEmptyObj =
      .ok ⟨hdrX, some []⟩ ∧
    ParseBGF hdrOracleX failOracle failOracle inputEmptyObj =
      (some ⟨hdrX, none⟩, some .smileUnsupported) := by
  refine ⟨?_, rfl, rfl⟩
  unfold ParseBGF
  simp [hsplit, hh, hbody, hs]

/-- C10 witness: the parametric clause applied at the fixture input and
oracles. -/
theorem parseBGF_smile_unsupported_witness :
    ParseBGF hdrOracleX failOracle failOracle inputEmptyObj =
      (some ⟨hdrX, none⟩, some .smileUnsupported) ∧
    ParseBGFFromReader hdrOracleX failOracle failOracle 9 inputEmptyObj =
      .ok ⟨hdrX, some []⟩ :=
  ⟨(parseBGF_smile_unsupported hdrOracleX failOracle failOracle inputEmptyObj
      headerLineX [0x3a, 0x29, 0x0a, 0x00, 0xfa, 0xfb]
      [0x3a, 0x29, 0x0a, 0x00, 0xfa, 0xfb] hdrX rfl rfl rfl rfl).1,
   (parseBGF_smile_unsupported hdrOracleX failOracle failOracle inputEmptyObj
      headerLineX [0x3a, 0x29, 0x0a, 0x00, 0xfa, 0xfb]
      [0x3a, 0x29, 0x0a, 0x00, 0xfa, 0xfb] hdrX rfl rfl rfl rfl).2.1⟩
